import Mathlib

/-!
# Verification of the aws-bedrock-langchain RAG / agent core

Shallow embedding, in Lean 4, of the parts of the repository that the
frozen claims are about:

* `app/document_chat.py` — `DocumentChatManager` (RAG orchestrator):
  text splitting (`RecursiveCharacterTextSplitter(chunk_size=1000,
  chunk_overlap=200, length_function=len)`), `create_vectorstore`,
  `chat_with_document`, `clear_document`.
* `app/research_agent.py` — the three tools (`CalculatorTool`,
  `TextAnalyzerTool`, `DateTimeTool`), `ResearchAgent.research`, the
  agent configuration (`max_iterations=3`,
  `early_stopping_method="generate"`), and the conversation memories.

Python strings are embedded as `List Char` (`length_function=len` counts
code points, which `List Char` matches for the inputs considered here);
Python exceptions as `Except`; the external model/embedding gateways as
oracle parameters.  Machine floats of the calculator are embedded as
exact rationals `ℚ`; the only numeric facts proved below are exact
integer ones, where the two agree.
-/

/-! ## Python string primitives -/

/-- The characters Python's `str.strip()` removes (ASCII whitespace;
the documents considered here are ASCII). -/
def pyWhitespace (ch : Char) : Bool :=
  ch = ' ' || ch = Char.ofNat 9 || ch = Char.ofNat 10 || ch = Char.ofNat 13 ||
  ch = Char.ofNat 11 || ch = Char.ofNat 12

/-- Python `str.strip()`. -/
def pyStrip (l : List Char) : List Char :=
  ((l.dropWhile pyWhitespace).reverse.dropWhile pyWhitespace).reverse

/-- Python `"sep".join(docs)` on a list of pieces. -/
def joinWithSep (sep : List Char) : List (List Char) → List Char
  | [] => []
  | [d] => d
  | d :: d2 :: rest => d ++ sep ++ joinWithSep sep (d2 :: rest)

/-- Split `l` at the leftmost non-overlapping occurrences of the
non-empty pattern `a :: s` (the semantics of `re.split` on an escaped
literal pattern, occurrence pieces only).  `acc` is the current piece,
reversed.  Structural fuel: every step consumes at least one character,
so `l.length + 1` at entry always suffices; the exhaustion branch is
unreachable. -/
def splitOnSepAux (a : Char) (s : List Char) : Nat → List Char → List Char → List (List Char)
  | 0, l, acc => [acc.reverse ++ l]
  | fuel + 1, l, acc =>
    if (a :: s).isPrefixOf l then
      acc.reverse :: splitOnSepAux a s fuel (l.drop (s.length + 1)) []
    else
      match l with
      | [] => [acc.reverse]
      | b :: t => splitOnSepAux a s fuel t (b :: acc)

/-- Python `re.split(pattern, text)` for a non-empty literal `pattern`:
the pieces between occurrences. -/
def splitOnSep (sep l : List Char) : List (List Char) :=
  match sep with
  | [] => [l]
  | a :: s => splitOnSepAux a s (l.length + 1) l []

/-- Python `str.replace(pat, rep)` (all leftmost non-overlapping
occurrences). -/
def pyReplace (pat rep l : List Char) : List Char :=
  joinWithSep rep (splitOnSep pat l)

/-- `re.search(re.escape(sep), text)` as a Boolean: does `sep` occur as
a contiguous substring of `l`?  (The empty pattern always matches.) -/
def containsSub (l s : List Char) : Bool :=
  if s.isPrefixOf l then true
  else
    match l with
    | [] => false
    | _ :: t => containsSub t s

/-- Python `str.split()` (no argument): split on runs of whitespace,
dropping empty pieces. -/
def pySplitWs : List Char → List (List Char)
  | [] => []
  | a :: t =>
    if pyWhitespace a then pySplitWs t
    else
      match pySplitWs t with
      | [] => [[a]]
      | w :: ws =>
        -- a non-whitespace head extends the following word only if the
        -- next character was not whitespace; track via t's head
        match t with
        | [] => [[a]]
        | b :: _ => if pyWhitespace b then [a] :: w :: ws else (a :: w) :: ws

/-! ## The text splitter (`langchain_text_splitters.RecursiveCharacterTextSplitter`)

`DocumentChatManager.__init__` (`document_chat.py:34-38`) builds
`RecursiveCharacterTextSplitter(chunk_size=1000, chunk_overlap=200,
length_function=len)`; the splitting algorithm itself lives in the
`langchain_text_splitters` dependency and is embedded here faithfully:
default separators `["\n\n", "\n", " ", ""]`, `keep_separator=True`
(separator attached to the following piece, merge-join separator `""`),
`strip_whitespace=True`. -/

/-- One piece of splitter bookkeeping state for `_merge_splits`:
accumulated emitted docs, the current window of pieces, and the running
`total` length counter (mirrored exactly, including its separator
terms). -/
structure MergeSt where
  docs : List (List Char)
  cur : List (List Char)
  total : Nat
deriving Repr, DecidableEq

/-- `TextSplitter._join_docs`: join with the separator, strip
whitespace, drop the result if empty. -/
def joinDocs (sep : List Char) (docs : List (List Char)) : Option (List Char) :=
  let t := pyStrip (joinWithSep sep docs)
  if t = [] then none else some t

/-- The inner `while` loop of `TextSplitter._merge_splits`: pop pieces
from the front of the current window while the window is longer than
the overlap, or too long to accept the incoming piece of length `dLen`.
(On an empty window with a true condition the Python source would raise
`IndexError`; that state is unreachable because `total` is always the
measured length of `cur`.) -/
def popWhile (c o sepLen dLen : Nat) : List (List Char) → Nat → Nat × List (List Char)
  | [], total => (total, [])
  | x :: rest, total =>
    if total > o ∨ (total + dLen + sepLen > c ∧ total > 0) then
      popWhile c o sepLen dLen rest (total - (x.length + if rest.length > 0 then sepLen else 0))
    else (total, x :: rest)

/-- One iteration of the `for d in splits` loop of
`TextSplitter._merge_splits`. -/
def mergeStep (c o : Nat) (sep : List Char) (st : MergeSt) (d : List Char) : MergeSt :=
  let dLen := d.length
  let st1 :=
    if st.total + dLen + (if st.cur.length > 0 then sep.length else 0) > c then
      if st.cur.length > 0 then
        let docs2 := st.docs ++ (joinDocs sep st.cur).toList
        let p := popWhile c o sep.length dLen st.cur st.total
        { docs := docs2, cur := p.2, total := p.1 }
      else st
    else st
  let cur2 := st1.cur ++ [d]
  { docs := st1.docs, cur := cur2,
    total := st1.total + dLen + (if cur2.length > 1 then sep.length else 0) }

/-- `TextSplitter._merge_splits`. -/
def mergeSplits (c o : Nat) (sep : List Char) (splits : List (List Char)) : List (List Char) :=
  let st := splits.foldl (mergeStep c o sep) ⟨[], [], 0⟩
  st.docs ++ (joinDocs sep st.cur).toList

/-- `_split_text_with_regex(text, re.escape(sep), keep_separator=True)`:
split on the separator, re-attach each separator occurrence to the
following piece, drop empty pieces.  The empty separator splits into
single characters (`list(text)`). -/
def splitKeep (text sep : List Char) : List (List Char) :=
  match sep with
  | [] => text.map (fun a => [a])
  | _ :: _ =>
    (match splitOnSep sep text with
     | [] => []
     | p :: rest => (p :: rest.map (fun q => sep ++ q)).filter (fun q => q ≠ []))

/-- The separator-selection loop at the head of
`RecursiveCharacterTextSplitter._split_text`: the first separator that
is empty or occurs in the text is chosen, together with the remaining
separators; if none matches the last separator is the default. -/
def chooseSep (text : List Char) : List (List Char) → List Char × List (List Char)
  | [] => ([], [])
  | [s] => (s, [])
  | s :: s2 :: rest =>
    if s = [] then ([], [])
    else if containsSub text s then (s, s2 :: rest)
    else chooseSep text (s2 :: rest)

/-- The `for s in splits` loop of `_split_text`: runs of short
("good") pieces are merged; a long piece flushes the run and is
expanded by `expand` (recursion into the remaining separators, or the
piece itself when none are left). -/
def goSplits (c o : Nat) (expand : List Char → List (List Char)) :
    List (List Char) → List (List Char) → List (List Char)
  | [], good => mergeSplits c o [] good
  | s :: rest, good =>
    if s.length < c then goSplits c o expand rest (good ++ [s])
    else mergeSplits c o [] good ++ expand s ++ goSplits c o expand rest []

/-- `RecursiveCharacterTextSplitter._split_text`, with structural fuel
on the recursion depth (each recursive call strictly shrinks the
separator list, so `seps.length + 1` at entry always suffices; on an
empty separator list the Python source would raise `IndexError` at
`separators[-1]`, a call that never happens). -/
def splitTextRec (c o : Nat) : Nat → List (List Char) → List Char → List (List Char)
  | 0, _, text => [text]
  | fuel + 1, seps, text =>
    match seps with
    | [] => [text]
    | _ :: _ =>
      let p := chooseSep text seps
      goSplits c o
        (fun s =>
          match p.2 with
          | [] => [s]
          | _ :: _ => splitTextRec c o fuel p.2 s)
        (splitKeep text p.1) []

/-- `RecursiveCharacterTextSplitter.split_text` with the default
separators `["\n\n", "\n", " ", ""]`. -/
def splitTextAll (c o : Nat) (text : List Char) : List (List Char) :=
  splitTextRec c o 5 [[Char.ofNat 10, Char.ofNat 10], [Char.ofNat 10], [' '], []] text

/-- The splitter as configured by `DocumentChatManager.__init__`
(`chunk_size=1000`, `chunk_overlap=200`, `length_function=len`). -/
def split_text (text : List Char) : List (List Char) :=
  splitTextAll 1000 200 text

/-! ## `DocumentChatManager` (`app/document_chat.py`)

State-passing embedding of the manager object.  The Bedrock embedding
model and the QA chain's generation call are external collaborators and
appear as oracle parameters; Python exceptions are `Except` values.
A call that mutates `self` and may raise is embedded as a function
returning the post-call state together with an `Except` result (on an
exception, no assignment to `self` has happened yet in the source, so
the post-call state is the pre-call state). -/

/-- One stored entry of the in-memory Chroma vector store:
(embedding vector, chunk text). -/
structure IndexEntry where
  vector : List Int
  chunk : List Char
deriving Repr, DecidableEq

/-- The fields of `DocumentChatManager` that the claims are about
(`__init__`, `document_chat.py:21-49`): `vectorstore`, `qa_chain` and
`memory` all start empty/`None`. -/
structure ChatManager where
  vectorstore : Option (List IndexEntry)
  qa_chain : Option Unit
  memory : List (List Char × List Char)
  current_document : Option (List Char)
deriving Repr, DecidableEq

/-- The freshly constructed manager. -/
def ChatManager.init : ChatManager :=
  { vectorstore := none, qa_chain := none, memory := [], current_document := none }

/-- Embed every chunk through the embedding gateway
(`Chroma.from_documents` embeds the chunk texts; the first failing
call aborts the whole construction). -/
def embedTexts (emb : List Char → Except String (List Int)) :
    List (List Char) → Except String (List IndexEntry)
  | [] => .ok []
  | t :: rest =>
    match emb t with
    | .error e => .error e
    | .ok v =>
      match embedTexts emb rest with
      | .error e => .error e
      | .ok entries => .ok (⟨v, t⟩ :: entries)

/-- `DocumentChatManager.create_vectorstore` (`document_chat.py:103-127`):
split the documents with the configured splitter, build the vector
store from the chunks (each chunk embedded via the gateway), then the
QA chain; return the chunk count.  If any embedding call raises, the
exception propagates before `self.vectorstore` is assigned, so the
manager state is returned unchanged. -/
def create_vectorstore (emb : List Char → Except String (List Int))
    (m : ChatManager) (documents : List (List Char)) :
    ChatManager × Except String Nat :=
  let texts := documents.flatMap (fun d => split_text d)
  match embedTexts emb texts with
  | .error e => (m, .error e)
  | .ok entries =>
    ({ m with vectorstore := some entries, qa_chain := some () }, .ok texts.length)

/-- Errors surfaced by `chat_with_document`. -/
inductive ChatErr where
  /-- the `ValueError("No document has been processed. ...")` guard -/
  | notReady : ChatErr
  /-- the re-raised `Exception(f"Error during document chat: ...")` -/
  | chatError (msg : List Char) : ChatErr
deriving Repr, DecidableEq

/-- A returned answer: the chain's `result` text plus the truncated
source previews. -/
structure ChatAnswer where
  answer : List Char
  sources : List (List Char)
  question : List Char
deriving Repr, DecidableEq

/-- The 200-character source preview of `chat_with_document`. -/
def sourcePreview (content : List Char) : List Char :=
  if content.length > 200 then content.take 200 ++ ("...".toList) else content

/-- `DocumentChatManager.chat_with_document` (`document_chat.py:129-154`):
raises (`ValueError`, embedded as `ChatErr.notReady`) when `qa_chain`
is `None`; otherwise runs the chain (oracle `runChain`, which returns
the result text and source chunks or raises) and wraps chain failures
in `Exception("Error during document chat: ...")`. -/
def chat_with_document
    (runChain : List Char → Except (List Char) (List Char × List (List Char)))
    (m : ChatManager) (question : List Char) : Except ChatErr ChatAnswer :=
  match m.qa_chain with
  | none => .error .notReady
  | some _ =>
    match runChain question with
    | .error e => .error (.chatError (("Error during document chat: ".toList) ++ e))
    | .ok (result, sourceDocs) =>
      .ok { answer := result, sources := sourceDocs.map sourcePreview, question := question }

/-- `DocumentChatManager.clear_document` (`document_chat.py:180-185`):
reset the vector store, QA chain, current document and memory. -/
def clear_document (_m : ChatManager) : ChatManager :=
  { vectorstore := none, qa_chain := none, memory := [], current_document := none }

/-- `DocumentChatManager.get_supported_formats` (`document_chat.py:187-189`). -/
def get_supported_formats : List (List Char) :=
  ["pdf".toList, "docx".toList, "doc".toList, "txt".toList]

/-! ## The two conversation memories (`ConversationBufferMemory`)

`DocumentChatManager.__init__` (`document_chat.py:40-45`) and
`ResearchAgent.__init__` (`research_agent.py:151-155`) each construct
their own `ConversationBufferMemory`.  The pair of independent buffers
is embedded as a product state acted on by per-session operations. -/

/-- An operation on one of the two session memories: append a
(speaker, utterance) turn, or clear the buffer. -/
inductive MemOp where
  | ragAppend (input output : List Char)
  | ragClear
  | agentAppend (input output : List Char)
  | agentClear
deriving Repr, DecidableEq

/-- The memories of the two sessions, as constructed: one buffer per
session. -/
structure Sessions where
  ragMemory : List (List Char × List Char)
  agentMemory : List (List Char × List Char)
deriving Repr, DecidableEq

/-- Apply one memory operation: each operation touches only the buffer
of the session it belongs to (the two `ConversationBufferMemory`
objects are distinct instances). -/
def applyMemOp (s : Sessions) : MemOp → Sessions
  | .ragAppend i o => { s with ragMemory := s.ragMemory ++ [(i, o)] }
  | .ragClear => { s with ragMemory := [] }
  | .agentAppend i o => { s with agentMemory := s.agentMemory ++ [(i, o)] }
  | .agentClear => { s with agentMemory := [] }

/-- Run a sequence of memory operations. -/
def runMemOps (s : Sessions) (ops : List MemOp) : Sessions :=
  ops.foldl applyMemOp s

/-- Does the operation belong to the RAG session? -/
def MemOp.isRag : MemOp → Bool
  | .ragAppend _ _ => true
  | .ragClear => true
  | .agentAppend _ _ => false
  | .agentClear => false

/-! ## `ResearchAgent` (`app/research_agent.py`) -/

/-- `CalculatorTool.name` (`research_agent.py:18`). -/
def calculatorName : List Char := "calculator".toList

/-- `TextAnalyzerTool.name` (`research_agent.py:54`). -/
def textAnalyzerName : List Char := "text_analyzer".toList

/-- `DateTimeTool.name` (`research_agent.py:104`). -/
def dateTimeToolName : List Char := "datetime_tool".toList

/-- `[tool.name for tool in self.tools]` for the registry built in
`ResearchAgent.__init__` (`research_agent.py:145-149`). -/
def registeredToolNames : List (List Char) :=
  [calculatorName, textAnalyzerName, dateTimeToolName]

/-- The dictionary returned by `ResearchAgent.research`. -/
structure ResearchResult where
  success : Bool
  response : List Char
  tools_used : List (List Char)
  error : Option (List Char)
deriving Repr, DecidableEq

/-- One think/act/observe record of a framework agent run: the tool the
model chose, its input, and the observation the tool returned. -/
structure AgentStep where
  tool : List Char
  input : List Char
  observation : List Char
deriving Repr, DecidableEq

/-- `ResearchAgent.research` (`research_agent.py:168-187`).  The
framework call `self.agent.run(query)` is an oracle: on success it
yields the response text (together with the trace of tool invocations
the framework performed internally, which `research` never looks at);
on failure it raises, and the `except` branch builds the failure
dictionary.  Field for field as in the source: the success branch
reports `[tool.name for tool in self.tools]` as `tools_used`; the
failure branch reports `success=False`, the
`"I encountered an error while researching: ..."` message, an **empty**
`tools_used` list, and the exception text. -/
def research (run : Except (List Char) (List Char × List AgentStep)) : ResearchResult :=
  match run with
  | .ok (response, _trace) =>
    { success := true, response := response,
      tools_used := registeredToolNames, error := none }
  | .error e =>
    { success := false,
      response := ("I encountered an error while researching: ".toList) ++ e,
      tools_used := [], error := some e }

/-! ## The bounded reasoning loop

Modelled from the spec: the think/act/observe loop itself lives in the
`langchain` framework (`initialize_agent` /
`AgentType.CONVERSATIONAL_REACT_DESCRIPTION`), not in this repository;
`ResearchAgent.__init__` (`research_agent.py:157-166`) only configures
it with `max_iterations=3` and `early_stopping_method="generate"`.
Spec §4.6 makes the loop's state machine explicit: each iteration asks
the model to either name a tool + input or finish with an answer; on
reaching the iteration cap without a finish decision the loop makes one
more "early stopping" model call that generates a best-effort final
answer from the trace so far. -/

/-- The model's per-iteration decision. -/
inductive Decision where
  | act (tool input : List Char)
  | finish (answer : List Char)
deriving Repr, DecidableEq

/-- Is the decision a tool action? -/
def Decision.isAct : Decision → Bool
  | .act _ _ => true
  | .finish _ => false

/-- The outcome of one agent run: the final answer, the trace of
executed steps, and whether the early-stopping generation call was
used. -/
structure AgentRunResult where
  answer : List Char
  trace : List AgentStep
  earlyStopped : Bool
deriving Repr, DecidableEq

/-- Modelled from the spec (§4.6): the framework's bounded loop with
`fuel` remaining iterations.  `decide` is the model's next-step choice
given the trace so far, `runTool` the registry dispatch, and
`finalize` the single early-stopping "generate a best-effort final
answer from the trace" model call. -/
def agentLoop (decideStep : List AgentStep → Decision)
    (runTool : List Char → List Char → List Char)
    (finalize : List AgentStep → List Char) :
    Nat → List AgentStep → AgentRunResult
  | 0, trace => { answer := finalize trace, trace := trace, earlyStopped := true }
  | fuel + 1, trace =>
    match decideStep trace with
    | .finish a => { answer := a, trace := trace, earlyStopped := false }
    | .act tool input =>
      agentLoop decideStep runTool finalize fuel
        (trace ++ [{ tool := tool, input := input, observation := runTool tool input }])

/-- The loop as configured by `ResearchAgent.__init__`:
`max_iterations=3`, `early_stopping_method="generate"`. -/
def agentRun (decideStep : List AgentStep → Decision)
    (runTool : List Char → List Char → List Char)
    (finalize : List AgentStep → List Char) : AgentRunResult :=
  agentLoop decideStep runTool finalize 3 []

/-! ## Python exceptions, and the calculator tool

`CalculatorTool._run` (`research_agent.py:21-46`) strips the query,
rewrites `sqrt`→`math.sqrt`, `sin`→`math.sin`, `cos`→`math.cos`,
`tan`→`math.tan`, `log`→`math.log`, `pi`→`math.pi`, `e`→`math.e`,
`^`→`**` (each via `str.replace`, i.e. every occurrence), then calls
`eval(query, {"__builtins__": {}}, allowed_names)` where
`allowed_names` is the non-dunder contents of the `math` module plus
`abs`, `round`, `min`, `max`.  The `eval` is embedded below as a
tokenizer, parser and eager evaluator for Python expressions over that
namespace.  Numbers are exact rationals: results Python computes
exactly (integer arithmetic, square roots of perfect squares) are
modelled exactly, while operations whose machine-float result is
inexact evaluate to the `unmodelled` exception — no proved statement
depends on those. -/

/-- An ASCII apostrophe, as it appears inside Python error messages. -/
def aposChar : Char := Char.ofNat 39

/-- The Python exceptions the embedded code can raise. -/
inductive PyExc where
  /-- `NameError` from `eval` name resolution -/
  | nameError (n : List Char)
  | typeError (msg : List Char)
  | valueError (msg : List Char)
  | zeroDivisionError
  | syntaxError
  | attributeError (msg : List Char)
  /-- artifact of the embedding: an operation whose exact value the
  rational embedding does not carry (machine-float results) -/
  | unmodelled (msg : List Char)
deriving Repr, DecidableEq

/-- `str(e)` for the exceptions above, as CPython renders them. -/
def PyExc.str : PyExc → List Char
  | .nameError n => ("name ".toList) ++ [aposChar] ++ n ++ [aposChar] ++ (" is not defined".toList)
  | .typeError m => m
  | .valueError m => m
  | .zeroDivisionError => "division by zero".toList
  | .syntaxError => "invalid syntax (<string>, line 1)".toList
  | .attributeError m => m
  | .unmodelled m => m

/-- An exact rational with explicitly normalized representation
(positive denominator, reduced fraction), used for the numeric domain
of the calculator.  All operations are plain structural definitions,
so concrete values reduce in the kernel. -/
structure PyNum where
  n : Int
  d : Nat
deriving Repr, DecidableEq

/-- Build a normalized rational from numerator and positive
denominator (denominator `0` never arises: every constructor below
guards it). -/
def pyNumMk (n : Int) (d : Nat) : PyNum :=
  let g := Int.gcd n (d : Int)
  if g = 0 then ⟨0, 1⟩ else ⟨n / (g : Int), d / g⟩

/-- The integer `k` as a `PyNum`. -/
def pyNumInt (k : Int) : PyNum := ⟨k, 1⟩

def PyNum.add (a b : PyNum) : PyNum := pyNumMk (a.n * b.d + b.n * a.d) (a.d * b.d)

def PyNum.sub (a b : PyNum) : PyNum := pyNumMk (a.n * b.d - b.n * a.d) (a.d * b.d)

def PyNum.mul (a b : PyNum) : PyNum := pyNumMk (a.n * b.n) (a.d * b.d)

/-- Multiplicative inverse (of a non-zero value; callers guard zero). -/
def PyNum.inv (a : PyNum) : PyNum :=
  if a.n > 0 then ⟨(a.d : Int), a.n.toNat⟩
  else if a.n < 0 then ⟨-(a.d : Int), (-a.n).toNat⟩
  else ⟨0, 1⟩

def PyNum.div (a b : PyNum) : PyNum := a.mul b.inv

def PyNum.neg (a : PyNum) : PyNum := ⟨-a.n, a.d⟩

def PyNum.absVal (a : PyNum) : PyNum := ⟨|a.n|, a.d⟩

/-- `⌊a⌋` (floor). -/
def PyNum.floor (a : PyNum) : Int := Int.fdiv a.n (a.d : Int)

/-- `⌈a⌉` (ceiling). -/
def PyNum.ceil (a : PyNum) : Int := -Int.fdiv (-a.n) (a.d : Int)

/-- Truncation toward zero. -/
def PyNum.trunc (a : PyNum) : Int := a.n.tdiv (a.d : Int)

def PyNum.powNat (a : PyNum) : Nat → PyNum
  | 0 => ⟨1, 1⟩
  | k + 1 => (a.powNat k).mul a

def PyNum.le (a b : PyNum) : Bool := a.n * (b.d : Int) ≤ b.n * (a.d : Int)

def PyNum.lt (a b : PyNum) : Bool := a.n * (b.d : Int) < b.n * (a.d : Int)

/-- Is the value an integer? -/
def ratIsInt (q : PyNum) : Bool := q.d = 1

/-- Python `round()` (banker's rounding, returns an int). -/
def pyRound (q : PyNum) : Int :=
  let f := q.floor
  let rem := q.n - f * (q.d : Int)
  if 2 * rem < (q.d : Int) then f
  else if 2 * rem > (q.d : Int) then f + 1
  else if f % 2 = 0 then f else f + 1

/-- A value produced by the restricted `eval`. -/
inductive PyVal where
  /-- a number; `isFloat` records Python's int/float distinction -/
  | num (isFloat : Bool) (q : PyNum)
  | str (s : List Char)
  /-- a callable out of `allowed_names` -/
  | builtin (name : List Char)
  /-- the empty dict bound to `__builtins__` -/
  | emptyDict
deriving Repr, DecidableEq

/-- The keys of `math.__dict__` that do not start with `__` and are
callables, as in CPython 3.x. -/
def mathFnNames : List (List Char) :=
  [ "acos", "acosh", "asin", "asinh", "atan", "atan2", "atanh", "cbrt", "ceil",
    "comb", "copysign", "cos", "cosh", "degrees", "dist", "erf", "erfc", "exp",
    "exp2", "expm1", "fabs", "factorial", "floor", "fmod", "frexp", "fsum",
    "gamma", "gcd", "hypot", "isclose", "isfinite", "isinf", "isnan", "isqrt",
    "lcm", "ldexp", "lgamma", "log", "log10", "log1p", "log2", "modf",
    "nextafter", "perm", "pow", "prod", "radians", "remainder", "sin", "sinh",
    "sqrt", "sumprod", "tan", "tanh", "trunc", "ulp" ].map String.toList

/-- The non-callable (float constant) keys of `math.__dict__`. -/
def mathConstNames : List (List Char) :=
  [ "pi", "e", "tau", "inf", "nan" ].map String.toList

/-- The extra callables the source adds:
`{"abs": abs, "round": round, "min": min, "max": max}`. -/
def extraFnNames : List (List Char) :=
  [ "abs", "round", "min", "max" ].map String.toList

/-- Name resolution inside
`eval(query, {"__builtins__": {}}, allowed_names)`: the locals are
`allowed_names`, the globals carry only `__builtins__ = {}`, and any
other identifier raises `NameError`.  In particular **`math` is not a
key of `allowed_names`** (the dict holds the module's members under
their bare names, not the module itself).  The float constants
(`pi`, `e`, ...) are irrational/non-finite machine floats and resolve
to the `unmodelled` artifact; no proved statement reaches them. -/
def lookupName (n : List Char) : Except PyExc PyVal :=
  if n ∈ mathFnNames || n ∈ extraFnNames then .ok (.builtin n)
  else if n ∈ mathConstNames then .error (.unmodelled ("float constant not carried exactly".toList))
  else if n = "__builtins__".toList then .ok .emptyDict
  else .error (.nameError n)

/-- Binary operators of the expression grammar. -/
inductive PyBinOp where
  | add | sub | mul | div | floordiv | modOp | powOp
deriving Repr, DecidableEq

/-- Python expressions (the fragment reachable from calculator
queries). -/
inductive PyExpr where
  | num (isFloat : Bool) (q : PyNum)
  | strLit (s : List Char)
  | name (n : List Char)
  | attr (base : PyExpr) (field : List Char)
  | call (fn : PyExpr) (args : List PyExpr)
  | binop (op : PyBinOp) (a b : PyExpr)
  | neg (a : PyExpr)
  | pos (a : PyExpr)

/-- Arithmetic on Python numbers; int/float contagion as in CPython. -/
def evalBinNum (op : PyBinOp) (f1 : Bool) (a : PyNum) (f2 : Bool) (b : PyNum) :
    Except PyExc PyVal :=
  let fl := f1 || f2
  match op with
  | .add => .ok (.num fl (a.add b))
  | .sub => .ok (.num fl (a.sub b))
  | .mul => .ok (.num fl (a.mul b))
  | .div =>
    if b.n = 0 then .error .zeroDivisionError
    else .ok (.num true (a.div b))
  | .floordiv =>
    if b.n = 0 then .error .zeroDivisionError
    else .ok (.num fl (pyNumInt (a.div b).floor))
  | .modOp =>
    if b.n = 0 then .error .zeroDivisionError
    else .ok (.num fl (a.sub (b.mul (pyNumInt (a.div b).floor))))
  | .powOp =>
    if ratIsInt b then
      if b.n ≥ 0 then .ok (.num fl (a.powNat b.n.toNat))
      else if a.n = 0 then .error .zeroDivisionError
      else .ok (.num true (a.powNat (-b.n).toNat).inv)
    else .error (.unmodelled ("non-integer power not carried exactly".toList))

/-- Apply a whitelisted callable.  Only the calls whose machine result
is exact are carried (`sqrt` of a perfect square, `abs`, `floor`,
`ceil`, `round`, `min`/`max`, `fabs`, `trunc`, `isqrt`, `factorial`,
`gcd`); every other whitelisted function evaluates to the `unmodelled`
artifact. -/
def applyBuiltin (name : List Char) (args : List PyVal) : Except PyExc PyVal :=
  if name = "sqrt".toList then
    match args with
    | [.num _ q] =>
      if q.n < 0 then .error (.valueError ("math domain error".toList))
      else
        let ns := Nat.sqrt q.n.toNat
        let ds := Nat.sqrt q.d
        if ns * ns = q.n.toNat ∧ ds * ds = q.d then
          .ok (.num true ⟨(ns : Int), ds⟩)
        else .error (.unmodelled ("irrational square root not carried exactly".toList))
    | _ => .error (.typeError ("sqrt() argument must be a number".toList))
  else if name = "abs".toList then
    match args with
    | [.num f q] => .ok (.num f q.absVal)
    | _ => .error (.typeError ("bad operand type for abs()".toList))
  else if name = "fabs".toList then
    match args with
    | [.num _ q] => .ok (.num true q.absVal)
    | _ => .error (.typeError ("must be real number".toList))
  else if name = "floor".toList then
    match args with
    | [.num _ q] => .ok (.num false (pyNumInt q.floor))
    | _ => .error (.typeError ("must be real number".toList))
  else if name = "ceil".toList then
    match args with
    | [.num _ q] => .ok (.num false (pyNumInt q.ceil))
    | _ => .error (.typeError ("must be real number".toList))
  else if name = "trunc".toList then
    match args with
    | [.num _ q] => .ok (.num false (pyNumInt q.trunc))
    | _ => .error (.typeError ("must be real number".toList))
  else if name = "round".toList then
    match args with
    | [.num _ q] => .ok (.num false (pyNumInt (pyRound q)))
    | _ => .error (.typeError ("must be real number".toList))
  else if name = "isqrt".toList then
    match args with
    | [.num false q] =>
      if q.n < 0 then .error (.valueError ("isqrt() argument must be nonnegative".toList))
      else .ok (.num false (pyNumInt (Nat.sqrt q.n.toNat : Nat)))
    | _ => .error (.typeError ("isqrt() argument must be an int".toList))
  else if name = "factorial".toList then
    match args with
    | [.num false q] =>
      if q.n < 0 then .error (.valueError ("factorial() not defined for negative values".toList))
      else .ok (.num false (pyNumInt (Nat.factorial q.n.toNat : Nat)))
    | _ => .error (.typeError ("factorial() argument must be an int".toList))
  else if name = "gcd".toList then
    match args with
    | [.num false q1, .num false q2] =>
      .ok (.num false (pyNumInt (Int.gcd q1.n q2.n : Nat)))
    | _ => .error (.typeError ("gcd() arguments must be ints".toList))
  else if name = "min".toList || name = "max".toList then
    match args with
    | [.num fa a, .num fb b] =>
      if name = "min".toList then
        .ok (if a.le b then .num fa a else .num fb b)
      else
        .ok (if b.le a then .num fa a else .num fb b)
    | _ => .error (.unmodelled ("min/max variant not carried".toList))
  else if name ∈ mathFnNames then
    .error (.unmodelled ("transcendental result not carried exactly".toList))
  else .error (.typeError ("object is not callable".toList))

mutual

/-- Eager evaluation of an expression in the restricted namespace
(operand order as in CPython: left to right, function before
arguments; the first exception propagates). -/
def evalExpr : PyExpr → Except PyExc PyVal
  | .num f q => .ok (.num f q)
  | .strLit s => .ok (.str s)
  | .name n => lookupName n
  | .attr base _field =>
    match evalExpr base with
    | .error e => .error e
    | .ok _ => .error (.attributeError ("attribute access not carried".toList))
  | .call fn args =>
    match evalExpr fn with
    | .error e => .error e
    | .ok fv =>
      match evalArgs args with
      | .error e => .error e
      | .ok vs =>
        match fv with
        | .builtin n => applyBuiltin n vs
        | _ => .error (.typeError ("object is not callable".toList))
  | .binop op a b =>
    match evalExpr a with
    | .error e => .error e
    | .ok va =>
      match evalExpr b with
      | .error e => .error e
      | .ok vb =>
        match va, vb with
        | .num f1 q1, .num f2 q2 => evalBinNum op f1 q1 f2 q2
        | .str s1, .str s2 =>
          match op with
          | .add => .ok (.str (s1 ++ s2))
          | _ => .error (.typeError ("unsupported operand type(s)".toList))
        | _, _ => .error (.typeError ("unsupported operand type(s)".toList))
  | .neg a =>
    match evalExpr a with
    | .error e => .error e
    | .ok (.num f q) => .ok (.num f q.neg)
    | .ok _ => .error (.typeError ("bad operand type for unary -".toList))
  | .pos a =>
    match evalExpr a with
    | .error e => .error e
    | .ok (.num f q) => .ok (.num f q)
    | .ok _ => .error (.typeError ("bad operand type for unary +".toList))

/-- Evaluate call arguments left to right. -/
def evalArgs : List PyExpr → Except PyExc (List PyVal)
  | [] => .ok []
  | a :: rest =>
    match evalExpr a with
    | .error e => .error e
    | .ok v =>
      match evalArgs rest with
      | .error e => .error e
      | .ok vs => .ok (v :: vs)

end

/-- Tokens of the Python expression fragment. -/
inductive Tok where
  | num (isFloat : Bool) (q : PyNum)
  | ident (s : List Char)
  | strLit (s : List Char)
  | plus | minus | star | slash | dstar | dslash | percent
  | lpar | rpar | comma | dot
deriving Repr, DecidableEq

/-- Is the character an ASCII digit? -/
def isDigitCh (ch : Char) : Bool := '0' ≤ ch && ch ≤ '9'

/-- May the character start / continue an identifier? -/
def isIdentStart (ch : Char) : Bool :=
  ('a' ≤ ch && ch ≤ 'z') || ('A' ≤ ch && ch ≤ 'Z') || ch = '_'

/-- Identifier continuation characters. -/
def isIdentCont (ch : Char) : Bool := isIdentStart ch || isDigitCh ch

/-- Digit value. -/
def digitVal (ch : Char) : Nat := ch.toNat - 48

/-- Read the value of a digit run. -/
def digitsVal (l : List Char) : Nat := l.foldl (fun acc ch => acc * 10 + digitVal ch) 0

/-- Tokenize the (already rewritten) query string, with structural
fuel (each step consumes at least one character, so `l.length + 1`
fuel at entry always suffices); any character outside the fragment is
a `SyntaxError`, as `eval` would raise at compile time. -/
def tokenizeFuel : Nat → List Char → Except PyExc (List Tok)
  | 0, _ => .error .syntaxError
  | _, [] => .ok []
  | fuel + 1, ch :: rest =>
    if pyWhitespace ch then tokenizeFuel fuel rest
    else if isDigitCh ch then
      let ds := (ch :: rest).takeWhile isDigitCh
      let r1 := (ch :: rest).dropWhile isDigitCh
      match r1 with
      | '.' :: r2 =>
        let fs := r2.takeWhile isDigitCh
        let r3 := r2.dropWhile isDigitCh
        let q : PyNum := pyNumMk ((digitsVal ds * 10 ^ fs.length + digitsVal fs : Nat) : Int) (10 ^ fs.length)
        (tokenizeFuel fuel r3).map (fun ts => .num true q :: ts)
      | _ => (tokenizeFuel fuel r1).map (fun ts => .num false (pyNumInt (digitsVal ds : Nat)) :: ts)
    else if isIdentStart ch then
      let nm := (ch :: rest).takeWhile isIdentCont
      let r1 := (ch :: rest).dropWhile isIdentCont
      (tokenizeFuel fuel r1).map (fun ts => .ident nm :: ts)
    else if ch = aposChar || ch = Char.ofNat 34 then
      let body := rest.takeWhile (fun b => b ≠ ch)
      match rest.dropWhile (fun b => b ≠ ch) with
      | [] => .error .syntaxError
      | _ :: r1 => (tokenizeFuel fuel r1).map (fun ts => .strLit body :: ts)
    else if ch = '*' then
      match rest with
      | '*' :: r1 => (tokenizeFuel fuel r1).map (fun ts => .dstar :: ts)
      | _ => (tokenizeFuel fuel rest).map (fun ts => .star :: ts)
    else if ch = '/' then
      match rest with
      | '/' :: r1 => (tokenizeFuel fuel r1).map (fun ts => .dslash :: ts)
      | _ => (tokenizeFuel fuel rest).map (fun ts => .slash :: ts)
    else if ch = '+' then (tokenizeFuel fuel rest).map (fun ts => .plus :: ts)
    else if ch = '-' then (tokenizeFuel fuel rest).map (fun ts => .minus :: ts)
    else if ch = '%' then (tokenizeFuel fuel rest).map (fun ts => .percent :: ts)
    else if ch = '(' then (tokenizeFuel fuel rest).map (fun ts => .lpar :: ts)
    else if ch = ')' then (tokenizeFuel fuel rest).map (fun ts => .rpar :: ts)
    else if ch = ',' then (tokenizeFuel fuel rest).map (fun ts => .comma :: ts)
    else if ch = '.' then (tokenizeFuel fuel rest).map (fun ts => .dot :: ts)
    else .error .syntaxError

/-- Tokenize with always-sufficient fuel. -/
def tokenize (l : List Char) : Except PyExc (List Tok) :=
  tokenizeFuel (l.length + 1) l

/- Recursive-descent parser, fueled by the token count (every
production consumes at least one token, so the fuel never runs out on
real inputs; exhausted fuel reports `SyntaxError`). -/
mutual

def parseArith (fuel : Nat) (ts : List Tok) : Except PyExc (PyExpr × List Tok) :=
  match fuel with
  | 0 => .error .syntaxError
  | fuel + 1 =>
    match parseTerm fuel ts with
    | .error e => .error e
    | .ok (a, r) => parseArithRest fuel a r

def parseArithRest (fuel : Nat) (acc : PyExpr) (ts : List Tok) :
    Except PyExc (PyExpr × List Tok) :=
  match fuel with
  | 0 => .error .syntaxError
  | fuel + 1 =>
    match ts with
    | .plus :: r =>
      match parseTerm fuel r with
      | .error e => .error e
      | .ok (b, r2) => parseArithRest fuel (.binop .add acc b) r2
    | .minus :: r =>
      match parseTerm fuel r with
      | .error e => .error e
      | .ok (b, r2) => parseArithRest fuel (.binop .sub acc b) r2
    | _ => .ok (acc, ts)

def parseTerm (fuel : Nat) (ts : List Tok) : Except PyExc (PyExpr × List Tok) :=
  match fuel with
  | 0 => .error .syntaxError
  | fuel + 1 =>
    match parseFactor fuel ts with
    | .error e => .error e
    | .ok (a, r) => parseTermRest fuel a r

def parseTermRest (fuel : Nat) (acc : PyExpr) (ts : List Tok) :
    Except PyExc (PyExpr × List Tok) :=
  match fuel with
  | 0 => .error .syntaxError
  | fuel + 1 =>
    match ts with
    | .star :: r =>
      match parseFactor fuel r with
      | .error e => .error e
      | .ok (b, r2) => parseTermRest fuel (.binop .mul acc b) r2
    | .slash :: r =>
      match parseFactor fuel r with
      | .error e => .error e
      | .ok (b, r2) => parseTermRest fuel (.binop .div acc b) r2
    | .dslash :: r =>
      match parseFactor fuel r with
      | .error e => .error e
      | .ok (b, r2) => parseTermRest fuel (.binop .floordiv acc b) r2
    | .percent :: r =>
      match parseFactor fuel r with
      | .error e => .error e
      | .ok (b, r2) => parseTermRest fuel (.binop .modOp acc b) r2
    | _ => .ok (acc, ts)

def parseFactor (fuel : Nat) (ts : List Tok) : Except PyExc (PyExpr × List Tok) :=
  match fuel with
  | 0 => .error .syntaxError
  | fuel + 1 =>
    match ts with
    | .minus :: r =>
      match parseFactor fuel r with
      | .error e => .error e
      | .ok (a, r2) => .ok (.neg a, r2)
    | .plus :: r =>
      match parseFactor fuel r with
      | .error e => .error e
      | .ok (a, r2) => .ok (.pos a, r2)
    | _ => parsePower fuel ts

def parsePower (fuel : Nat) (ts : List Tok) : Except PyExc (PyExpr × List Tok) :=
  match fuel with
  | 0 => .error .syntaxError
  | fuel + 1 =>
    match parsePostfix fuel ts with
    | .error e => .error e
    | .ok (a, r) =>
      match r with
      | .dstar :: r2 =>
        match parseFactor fuel r2 with
        | .error e => .error e
        | .ok (b, r3) => .ok (.binop .powOp a b, r3)
      | _ => .ok (a, r)

def parsePostfix (fuel : Nat) (ts : List Tok) : Except PyExc (PyExpr × List Tok) :=
  match fuel with
  | 0 => .error .syntaxError
  | fuel + 1 =>
    match parseAtom fuel ts with
    | .error e => .error e
    | .ok (a, r) => parsePostfixRest fuel a r

def parsePostfixRest (fuel : Nat) (acc : PyExpr) (ts : List Tok) :
    Except PyExc (PyExpr × List Tok) :=
  match fuel with
  | 0 => .error .syntaxError
  | fuel + 1 =>
    match ts with
    | .dot :: .ident f :: r => parsePostfixRest fuel (.attr acc f) r
    | .lpar :: .rpar :: r => parsePostfixRest fuel (.call acc []) r
    | .lpar :: r =>
      match parseArgs fuel r with
      | .error e => .error e
      | .ok (args, r2) =>
        match r2 with
        | .rpar :: r3 => parsePostfixRest fuel (.call acc args) r3
        | _ => .error .syntaxError
    | _ => .ok (acc, ts)

def parseArgs (fuel : Nat) (ts : List Tok) : Except PyExc (List PyExpr × List Tok) :=
  match fuel with
  | 0 => .error .syntaxError
  | fuel + 1 =>
    match parseArith fuel ts with
    | .error e => .error e
    | .ok (a, r) =>
      match r with
      | .comma :: r2 =>
        match parseArgs fuel r2 with
        | .error e => .error e
        | .ok (args, r3) => .ok (a :: args, r3)
      | _ => .ok ([a], r)

def parseAtom (fuel : Nat) (ts : List Tok) : Except PyExc (PyExpr × List Tok) :=
  match fuel with
  | 0 => .error .syntaxError
  | fuel + 1 =>
    match ts with
    | .num f q :: r => .ok (.num f q, r)
    | .strLit s :: r => .ok (.strLit s, r)
    | .ident n :: r => .ok (.name n, r)
    | .lpar :: r =>
      match parseArith fuel r with
      | .error e => .error e
      | .ok (a, r2) =>
        match r2 with
        | .rpar :: r3 => .ok (a, r3)
        | _ => .error .syntaxError
    | _ => .error .syntaxError

end

/-- `eval` of a source string in the restricted namespace: tokenize,
parse a full expression (trailing tokens are a `SyntaxError`),
evaluate. -/
def pyEvalStr (s : List Char) : Except PyExc PyVal :=
  match tokenize s with
  | .error e => .error e
  | .ok [] => .error .syntaxError
  | .ok ts =>
    match parseArith (ts.length * 4 + 4) ts with
    | .error e => .error e
    | .ok (a, []) => evalExpr a
    | .ok (_, _ :: _) => .error .syntaxError

/-- Decimal rendering of an integer, as Python prints it. -/
def intRepr (n : ℤ) : List Char := (Int.repr n).toList

/-- Decimal rendering of a natural number. -/
def natRepr0 (n : Nat) : List Char := (Nat.repr n).toList

/-- `str(result)` for the f-string of the calculator.  Integers print
exactly; a float prints with a trailing `.0` when integral (as CPython
does); a non-integral float is rendered as its exact fraction — an
approximation of CPython's shortest-round-trip float repr that no
proved statement relies on. -/
def formatPyVal : PyVal → List Char
  | .num false q => intRepr q.n
  | .num true q =>
    if q.d = 1 then intRepr q.n ++ (".0".toList)
    else intRepr q.n ++ ("/".toList) ++ natRepr0 q.d
  | .str s => s
  | .builtin n => ("<built-in function ".toList) ++ n ++ (">".toList)
  | .emptyDict => "\x7b\x7d".toList

/-- The replacement cascade of `CalculatorTool._run`
(`research_agent.py:25-35`), applied after `query.strip()`; each
`str.replace` rewrites every occurrence, in source order. -/
def calcReplace (query : List Char) : List Char :=
  let q0 := pyStrip query
  let q1 := pyReplace ("sqrt".toList) ("math.sqrt".toList) q0
  let q2 := pyReplace ("sin".toList) ("math.sin".toList) q1
  let q3 := pyReplace ("cos".toList) ("math.cos".toList) q2
  let q4 := pyReplace ("tan".toList) ("math.tan".toList) q3
  let q5 := pyReplace ("log".toList) ("math.log".toList) q4
  let q6 := pyReplace ("pi".toList) ("math.pi".toList) q5
  let q7 := pyReplace ("e".toList) ("math.e".toList) q6
  pyReplace ("^".toList) ("**".toList) q7

/-- The `try` body of `CalculatorTool._run`: rewrite, evaluate, format
the success message (note the f-string interpolates the **rewritten**
query). -/
def calculator_body (query : List Char) : Except PyExc (List Char) :=
  let q := calcReplace query
  match pyEvalStr q with
  | .error e => .error e
  | .ok v => .ok (("The result of ".toList) ++ q ++ (" is: ".toList) ++ formatPyVal v)

/-- The `except Exception` handler of `CalculatorTool._run`. -/
def calculatorHandler (e : PyExc) : List Char :=
  ("Error in calculation: ".toList) ++ e.str ++
    (". Please check your mathematical expression.".toList)

/-- A Python `try/except Exception` block whose handler returns
normally: the body's exception, if any, is absorbed. -/
def pyTry (body : Except PyExc (List Char)) (handler : PyExc → List Char) :
    Except PyExc (List Char) :=
  match body with
  | .ok s => .ok s
  | .error e => .ok (handler e)

/-- `CalculatorTool._run` viewed in the exception monad. -/
def calculator_run_exc (query : List Char) : Except PyExc (List Char) :=
  pyTry (calculator_body query) calculatorHandler

/-- `CalculatorTool._run` as the total string function the caller
sees (the `.error` fallback is provably unreachable). -/
def calculator_run (query : List Char) : List Char :=
  match calculator_run_exc query with
  | .ok s => s
  | .error e => e.str

/-! ## The text analyzer tool (`TextAnalyzerTool._run`,
`research_agent.py:57-96`) -/

/-- `len(text.split())` (`research_agent.py:61`). -/
def word_count (text : List Char) : Nat := (pySplitWs text).length

/-- Is the character sentence punctuation (`[.!?]`)? -/
def isSentencePunct (ch : Char) : Bool := ch = '.' || ch = '!' || ch = '?'

/-- Count maximal runs of characters satisfying `p` (the length of
`re.findall(r'[.!?]+', text)`-style match lists).  `inRun` tracks
whether the previous character was part of a run. -/
def countRuns (p : Char → Bool) : List Char → Bool → Nat
  | [], _ => 0
  | a :: t, inRun =>
    if p a then (if inRun then 0 else 1) + countRuns p t true
    else countRuns p t false

/-- `len(re.findall(r'[.!?]+', text))` (`research_agent.py:64`). -/
def sentence_count (text : List Char) : Nat := countRuns isSentencePunct text false

/-- `len(text.replace(' ', ''))` (`research_agent.py:63`). -/
def char_count_no_spaces (text : List Char) : Nat :=
  (pyReplace (" ".toList) [] text).length

/-- `len([p for p in text.split('\n\n') if p.strip()])`
(`research_agent.py:65`). -/
def paragraph_count (text : List Char) : Nat :=
  ((splitOnSep ([Char.ofNat 10, Char.ofNat 10]) text).filter
    (fun p => pyStrip p ≠ [])).length

/-- Word characters of `\w` (ASCII fragment). -/
def isWordChar (ch : Char) : Bool := isIdentCont ch

/-- Python `str.lower()` (ASCII). -/
def pyLower (l : List Char) : List Char := l.map Char.toLower

/-- Helper for `findWordRuns`: `cur` is the word-character run being
accumulated, reversed. -/
def findWordRunsAux : List Char → Option (List Char) → List (List Char)
  | [], none => []
  | [], some r => [r.reverse]
  | a :: t, none =>
    if isWordChar a then findWordRunsAux t (some [a]) else findWordRunsAux t none
  | a :: t, some r =>
    if isWordChar a then findWordRunsAux t (some (a :: r))
    else r.reverse :: findWordRunsAux t none

/-- `re.findall(r'\b\w+\b', text)`: the maximal runs of word
characters. -/
def findWordRuns (l : List Char) : List (List Char) := findWordRunsAux l none

/-- Build the word-frequency table in first-occurrence order
(`research_agent.py:68-72`: a `dict` preserves insertion order), words
longer than 3 characters only. -/
def wordFreq : List (List Char) → List (List Char × Nat) → List (List Char × Nat)
  | [], acc => acc
  | w :: rest, acc =>
    if w.length > 3 then
      match acc.find? (fun p => p.1 = w) with
      | some _ => wordFreq rest (acc.map (fun p => if p.1 = w then (p.1, p.2 + 1) else p))
      | none => wordFreq rest (acc ++ [(w, 1)])
    else wordFreq rest acc

/-- Stable insertion for a descending sort by count
(`sorted(..., key=lambda x: x[1], reverse=True)` is stable: ties keep
their insertion order). -/
def insertDesc (x : List Char × Nat) : List (List Char × Nat) → List (List Char × Nat)
  | [] => [x]
  | y :: t => if x.2 > y.2 then x :: y :: t else y :: insertDesc x t

/-- `sorted(word_freq.items(), key=lambda x: x[1], reverse=True)[:5]`
(`research_agent.py:75`). -/
def topWords (freq : List (List Char × Nat)) : List (List Char × Nat) :=
  (freq.foldl (fun acc x => insertDesc x acc) []).take 5

/-- `math.ceil(word_count / 200)` (`research_agent.py:78`; exact,
since `word_count / 200` is computed as a rational here and CPython's
float division is exact for the small integers involved). -/
def reading_time (wc : Nat) : Nat := (wc + 199) / 200

/-- Decimal rendering of a natural number. -/
def natRepr (n : Nat) : List Char := (Nat.repr n).toList

/-- The newline character. -/
def nlChar : Char := Char.ofNat 10

/-- The analysis text assembled by `TextAnalyzerTool._run`
(`research_agent.py:80-94`). -/
def analysisText (text : List Char) : List Char :=
  let wc := word_count text
  let freq := wordFreq (findWordRuns (pyLower text)) []
  let tops := topWords freq
  ([nlChar] ++ ("Text Analysis Results:".toList) ++ [nlChar] ++
   ("- Word count: ".toList) ++ natRepr wc ++ [nlChar] ++
   ("- Character count: ".toList) ++ natRepr text.length ++ [nlChar] ++
   ("- Character count (no spaces): ".toList) ++ natRepr (char_count_no_spaces text) ++ [nlChar] ++
   ("- Sentence count: ".toList) ++ natRepr (sentence_count text) ++ [nlChar] ++
   ("- Paragraph count: ".toList) ++ natRepr (paragraph_count text) ++ [nlChar] ++
   ("- Estimated reading time: ".toList) ++ natRepr (reading_time wc) ++
   (" minute(s)".toList) ++ [nlChar] ++ [nlChar] ++
   ("Top 5 most frequent words:".toList) ++ [nlChar]) ++
  (tops.flatMap (fun p =>
    ("- ".toList) ++ p.1 ++ (": ".toList) ++ natRepr p.2 ++ (" times".toList) ++ [nlChar]))

/-- The `try` body of `TextAnalyzerTool._run`: every operation it
performs is total, so the body never raises. -/
def text_analyzer_body (text : List Char) : Except PyExc (List Char) :=
  .ok (analysisText text)

/-- `TextAnalyzerTool._run` in the exception monad (handler:
`"Error analyzing text: ..."`). -/
def text_analyzer_run_exc (text : List Char) : Except PyExc (List Char) :=
  pyTry (text_analyzer_body text) (fun e => ("Error analyzing text: ".toList) ++ e.str)

/-- `TextAnalyzerTool._run` as a total string function. -/
def text_analyzer_run (text : List Char) : List Char :=
  match text_analyzer_run_exc text with
  | .ok s => s
  | .error e => e.str

/-! ## The date/time tool (`DateTimeTool._run`,
`research_agent.py:107-131`) -/

/-- Gregorian leap year. -/
def isLeapYear (y : Nat) : Bool := y % 4 = 0 && (y % 100 ≠ 0 || y % 400 = 0)

/-- Days in a month. -/
def daysInMonth (y m : Nat) : Nat :=
  if m = 2 then (if isLeapYear y then 29 else 28)
  else if m = 4 || m = 6 || m = 9 || m = 11 then 30
  else 31

/-- Days in the months strictly before `m` of year `y`. -/
def daysBeforeMonth (y m : Nat) : Nat :=
  (List.range (m - 1)).foldl (fun acc i => acc + daysInMonth y (i + 1)) 0

/-- Proleptic-Gregorian ordinal of a date (`date.toordinal`). -/
def dateOrdinal (y m d : Nat) : Nat :=
  365 * (y - 1) + (y - 1) / 4 - (y - 1) / 100 + (y - 1) / 400 + daysBeforeMonth y m + d

/-- Try to match `\d{4}-\d{2}-\d{2}` at the head of the list,
returning the matched characters and the remainder. -/
def matchDateAt (l : List Char) : Option (List Char × List Char) :=
  match l with
  | y1 :: y2 :: y3 :: y4 :: h1 :: m1 :: m2 :: h2 :: d1 :: d2 :: rest =>
    if isDigitCh y1 && isDigitCh y2 && isDigitCh y3 && isDigitCh y4 && h1 = '-' &&
       isDigitCh m1 && isDigitCh m2 && h2 = '-' && isDigitCh d1 && isDigitCh d2 then
      some ([y1, y2, y3, y4, h1, m1, m2, h2, d1, d2], rest)
    else none
  | _ => none

/-- `re.findall(r'\d{4}-\d{2}-\d{2}', query)`: scan left to right,
consuming each match.  Structural fuel: every step consumes at least
one character, so `l.length + 1` at entry suffices. -/
def findDatesAux : Nat → List Char → List (List Char)
  | 0, _ => []
  | _, [] => []
  | fuel + 1, a :: t =>
    match matchDateAt (a :: t) with
    | some (m, rest) => m :: findDatesAux fuel rest
    | none => findDatesAux fuel t

/-- `re.findall(r'\d{4}-\d{2}-\d{2}', query)`. -/
def findDates (l : List Char) : List (List Char) := findDatesAux (l.length + 1) l

/-- `datetime.strptime(s, '%Y-%m-%d')`: parse and validate a matched
date (`ValueError` outside the calendar or for year 0, as CPython
raises). -/
def strptimeYmd (s : List Char) : Except PyExc (Nat × Nat × Nat) :=
  match s with
  | [y1, y2, y3, y4, _, m1, m2, _, d1, d2] =>
    let y := digitsVal [y1, y2, y3, y4]
    let m := digitsVal [m1, m2]
    let d := digitsVal [d1, d2]
    if y = 0 then .error (.valueError ("year 0 is out of range".toList))
    else if m = 0 || m > 12 then
      .error (.valueError ("time data does not match format".toList))
    else if d = 0 || d > daysInMonth y m then
      .error (.valueError ("day is out of range for month".toList))
    else .ok (y, m, d)
  | _ => .error (.valueError ("time data does not match format".toList))

/-- The `try` body of `DateTimeTool._run` (`research_agent.py:109-128`).
`now` abstracts `datetime.now().strftime('%Y-%m-%d %H:%M:%S')`, an
external reading of the clock. -/
def datetime_body (now : List Char) (query : List Char) : Except PyExc (List Char) :=
  let q := pyStrip (pyLower query)
  if q = "current".toList || q = "now".toList then
    .ok (("Current date and time: ".toList) ++ now)
  else if containsSub q ("days between".toList) then
    match findDates q with
    | s1 :: s2 :: _ =>
      match strptimeYmd s1 with
      | .error e => .error e
      | .ok (y1, m1, d1) =>
        match strptimeYmd s2 with
        | .error e => .error e
        | .ok (y2, m2, d2) =>
          let o1 := dateOrdinal y1 m1 d1
          let o2 := dateOrdinal y2 m2 d2
          let diff := ((o2 : ℤ) - (o1 : ℤ)).natAbs
          .ok (("Days between ".toList) ++ s1 ++ (" and ".toList) ++ s2 ++
               (": ".toList) ++ natRepr diff ++ (" days".toList))
    | _ => .ok ("Please provide dates in YYYY-MM-DD format".toList)
  else
    .ok (("Available operations: ".toList) ++ [aposChar] ++ ("current".toList) ++ [aposChar] ++
         (" for current datetime, ".toList) ++ [aposChar] ++
         ("days between YYYY-MM-DD and YYYY-MM-DD".toList) ++ [aposChar] ++
         (" for date calculations".toList))

/-- `DateTimeTool._run` in the exception monad (handler:
`"Error with date/time operation: ..."`). -/
def datetime_run_exc (now query : List Char) : Except PyExc (List Char) :=
  pyTry (datetime_body now query) (fun e => ("Error with date/time operation: ".toList) ++ e.str)

/-- `DateTimeTool._run` as a total string function. -/
def datetime_run (now query : List Char) : List Char :=
  match datetime_run_exc now query with
  | .ok s => s
  | .error e => e.str

/-- The dispatch of the tool registry: route a tool name chosen by the
model to the corresponding `_run` (the registry of
`ResearchAgent.__init__`). -/
def runRegisteredTool (now : List Char) (name input : List Char) : List Char :=
  if name = calculatorName then calculator_run input
  else if name = textAnalyzerName then text_analyzer_run input
  else if name = dateTimeToolName then datetime_run now input
  else ("tool not found".toList)

/-- Specification-side description of the splitter's output on
separator-free text: the window `w` (of length `chunk_size`) already
accumulated, followed by the windows over the remaining characters
`ys`, advancing by `chunk_size - overlap` per window. -/
def winChunks (c o : Nat) : List Char → List Char → List (List Char)
  | w, ys =>
    if ys.length = 0 then [w]
    else if ys.length < c - o ∨ c - o = 0 then [w, w.drop (c - o) ++ ys]
    else w :: winChunks c o (w.drop (c - o) ++ ys.take (c - o)) (ys.drop (c - o))
termination_by _ ys => ys.length
decreasing_by
  rename_i hc1 hc2
  clear hc1
  simp only [List.length_drop]
  omega

/-! # Theorems -/

/-! ## Claim C1 — `research` under a failing generation backend -/

/-- Claim C1 counterexample: when `agent.run` raises (here with
message `"Connection refused"`), `research` does return
`success=False` and a readable message, but its `tools_used` field is
the **empty list**, not the registered tool names — the claim's
"toolsUsed still lists the names of the registered tools" is false at
this input. -/
theorem research_failure_counterexample :
    (research (.error ("Connection refused".toList))).success = false ∧
    (research (.error ("Connection refused".toList))).tools_used = [] ∧
    (research (.error ("Connection refused".toList))).tools_used ≠ registeredToolNames := by
  refine ⟨rfl, rfl, ?_⟩
  decide

/-- Claim C1 (amended): for every query on which the agent's
generation backend is unreachable (`agent.run` raises with message
`e`), `research` returns `success=False`, the human-readable message
`"I encountered an error while researching: " ++ e`, the exception
text in `error` — and an **empty** `tools_used` list (the registered
tool names are not preserved). -/
theorem research_failure_empties_tools :
    ∀ e : List Char,
      research (.error e) =
        { success := false,
          response := ("I encountered an error while researching: ".toList) ++ e,
          tools_used := [], error := some e } :=
  fun _ => rfl

/-! ## Claim C10 — `research` on success reports the registry -/

/-- Claim C10: whenever the agent run succeeds, `research` reports
`tools_used` as the names of all three registered tools —
`calculator`, `text_analyzer`, `datetime_tool` — regardless of the
trace of tools the run actually invoked (the field reports the
registry, not the trace). -/
theorem research_success_reports_registry :
    (∀ (resp : List Char) (trace : List AgentStep),
      research (.ok (resp, trace)) =
        { success := true, response := resp,
          tools_used := registeredToolNames, error := none }) ∧
    registeredToolNames =
      ["calculator".toList, "text_analyzer".toList, "datetime_tool".toList] :=
  ⟨fun _ _ => rfl, rfl⟩

/-! ## Claim C9 — the two conversation memories are independent -/

theorem runMemOps_agent_view :
    ∀ (ops : List MemOp) (s s' : Sessions),
      s.agentMemory = s'.agentMemory →
      (runMemOps s ops).agentMemory =
        (runMemOps s' (ops.filter (fun op => !op.isRag))).agentMemory := by
  intro ops
  induction ops with
  | nil => intro s s' h; simpa [runMemOps] using h
  | cons op rest ih =>
    intro s s' h
    cases op with
    | ragAppend i o =>
      have h2 : (applyMemOp s (.ragAppend i o)).agentMemory = s'.agentMemory := by
        simpa [applyMemOp] using h
      simpa [runMemOps, MemOp.isRag, List.filter] using ih (applyMemOp s (.ragAppend i o)) s' h2
    | ragClear =>
      have h2 : (applyMemOp s .ragClear).agentMemory = s'.agentMemory := by
        simpa [applyMemOp] using h
      simpa [runMemOps, MemOp.isRag, List.filter] using ih (applyMemOp s .ragClear) s' h2
    | agentAppend i o =>
      have h2 : (applyMemOp s (.agentAppend i o)).agentMemory =
          (applyMemOp s' (.agentAppend i o)).agentMemory := by
        simp [applyMemOp, h]
      simpa [runMemOps, MemOp.isRag, List.filter]
        using ih (applyMemOp s (.agentAppend i o)) (applyMemOp s' (.agentAppend i o)) h2
    | agentClear =>
      have h2 : (applyMemOp s .agentClear).agentMemory =
          (applyMemOp s' .agentClear).agentMemory := by
        simp [applyMemOp]
      simpa [runMemOps, MemOp.isRag, List.filter]
        using ih (applyMemOp s .agentClear) (applyMemOp s' .agentClear) h2

theorem runMemOps_rag_view :
    ∀ (ops : List MemOp) (s s' : Sessions),
      s.ragMemory = s'.ragMemory →
      (runMemOps s ops).ragMemory =
        (runMemOps s' (ops.filter MemOp.isRag)).ragMemory := by
  intro ops
  induction ops with
  | nil => intro s s' h; simpa [runMemOps] using h
  | cons op rest ih =>
    intro s s' h
    cases op with
    | ragAppend i o =>
      have h2 : (applyMemOp s (.ragAppend i o)).ragMemory =
          (applyMemOp s' (.ragAppend i o)).ragMemory := by
        simp [applyMemOp, h]
      simpa [runMemOps, MemOp.isRag, List.filter]
        using ih (applyMemOp s (.ragAppend i o)) (applyMemOp s' (.ragAppend i o)) h2
    | ragClear =>
      have h2 : (applyMemOp s .ragClear).ragMemory =
          (applyMemOp s' .ragClear).ragMemory := by
        simp [applyMemOp]
      simpa [runMemOps, MemOp.isRag, List.filter]
        using ih (applyMemOp s .ragClear) (applyMemOp s' .ragClear) h2
    | agentAppend i o =>
      have h2 : (applyMemOp s (.agentAppend i o)).ragMemory = s'.ragMemory := by
        simpa [applyMemOp] using h
      simpa [runMemOps, MemOp.isRag, List.filter]
        using ih (applyMemOp s (.agentAppend i o)) s' h2
    | agentClear =>
      have h2 : (applyMemOp s .agentClear).ragMemory = s'.ragMemory := by
        simpa [applyMemOp] using h
      simpa [runMemOps, MemOp.isRag, List.filter] using ih (applyMemOp s .agentClear) s' h2

/-- Claim C9: the RAG session's memory and the agent session's memory
are independent: appending a turn to one or clearing it leaves the
other unchanged, and over every sequence of operations on the two
sessions, each session's buffer is exactly what its own operations
produce (the other session's operations can be erased without
effect). -/
theorem memories_are_independent :
    ∀ (s : Sessions) (i o : List Char) (ops : List MemOp),
      (applyMemOp s (.ragAppend i o)).agentMemory = s.agentMemory ∧
      (applyMemOp s .ragClear).agentMemory = s.agentMemory ∧
      (applyMemOp s (.agentAppend i o)).ragMemory = s.ragMemory ∧
      (applyMemOp s .agentClear).ragMemory = s.ragMemory ∧
      (runMemOps s ops).agentMemory =
        (runMemOps s (ops.filter (fun op => !op.isRag))).agentMemory ∧
      (runMemOps s ops).ragMemory =
        (runMemOps s (ops.filter MemOp.isRag)).ragMemory := by
  intro s i o ops
  exact ⟨rfl, rfl, rfl, rfl, runMemOps_agent_view ops s s rfl, runMemOps_rag_view ops s s rfl⟩

/-! ## Claim C5 — `ask` outside the `Indexed` state -/

/-- Claim C5: for every question, `chat_with_document` invoked when
the session is not indexed (its `qa_chain` is `None`) fails with the
not-ready error (`ValueError("No document has been processed. ...")`)
rather than producing an answer; in particular it does so after
`clear_document` (whatever the prior state, including a freshly
ingested one) and on a freshly constructed manager. -/
theorem chat_requires_indexed :
    ∀ (runChain : List Char → Except (List Char) (List Char × List (List Char)))
      (m : ChatManager) (q : List Char),
      (m.qa_chain = none → chat_with_document runChain m q = .error .notReady) ∧
      chat_with_document runChain (clear_document m) q = .error .notReady ∧
      chat_with_document runChain ChatManager.init q = .error .notReady := by
  intro runChain m q
  refine ⟨?_, rfl, rfl⟩
  intro h
  simp [chat_with_document, h]

/-- Witness for C5 at concrete inputs: ingest a document into a fresh
manager (with an embedding gateway that succeeds), clear it, and ask —
the call fails with the not-ready error. -/
theorem chat_requires_indexed_witness :
    chat_with_document (fun _ => .ok ("an answer".toList, []))
      (clear_document
        (create_vectorstore (fun _ => .ok [1]) ChatManager.init ["some document".toList]).1)
      ("what is this about?".toList) = .error .notReady ∧
    (create_vectorstore (fun _ => .ok [1]) ChatManager.init
      ["some document".toList]).1.qa_chain = some () := by
  constructor
  · exact (chat_requires_indexed (fun _ => .ok ("an answer".toList, []))
      (clear_document
        (create_vectorstore (fun _ => .ok [1]) ChatManager.init ["some document".toList]).1)
      ("what is this about?".toList)).1 rfl
  · decide

/-! ## Claim C2 — ingest failure and the state of the index -/

/-- An embedding gateway that is down: every call raises. -/
def failingEmbed : List Char → Except String (List Int) :=
  fun _ => .error "embedding service unavailable"

/-- A manager that already holds an indexed document (the state after
a successful earlier `create_vectorstore`). -/
def previousManager : ChatManager :=
  { vectorstore := some [⟨[1], "old chunk".toList⟩], qa_chain := some (),
    memory := [], current_document := none }

/-- Claim C2 counterexample: with a previously indexed document in
place, a `create_vectorstore` call whose embedding calls fail raises
(`EmbeddingError` at the interface) — but the manager's vector store
still holds the **previous document's entries**; it is not left
cleared.  (`Chroma.from_documents` raises before the assignment to
`self.vectorstore` executes, so the old value survives.) -/
theorem create_vectorstore_failure_counterexample :
    (create_vectorstore failingEmbed previousManager ["new doc".toList]).1 = previousManager ∧
    (create_vectorstore failingEmbed previousManager ["new doc".toList]).2 =
      .error "embedding service unavailable" ∧
    (create_vectorstore failingEmbed previousManager ["new doc".toList]).1.vectorstore =
      some [⟨[1], "old chunk".toList⟩] ∧
    some [(⟨[1], "old chunk".toList⟩ : IndexEntry)] ≠ (none : Option (List IndexEntry)) ∧
    some [(⟨[1], "old chunk".toList⟩ : IndexEntry)] ≠ some ([] : List IndexEntry) := by
  refine ⟨rfl, rfl, rfl, ?_, ?_⟩ <;> simp

/-- Claim C2 (amended): if some chunk's embedding call fails, the
operation fails with the embedding error, and the manager's state —
its vector store in particular — is left exactly as it was before the
call: the previous document's index (when one exists) survives, and
no partial new index is installed.  The index is **not** cleared; only
retrying ingestion (or `clear_document`) changes it. -/
theorem create_vectorstore_failure_leaves_state :
    ∀ (emb : List Char → Except String (List Int)) (m : ChatManager)
      (docs : List (List Char)) (e : String),
      embedTexts emb (docs.flatMap (fun d => split_text d)) = .error e →
      create_vectorstore emb m docs = (m, .error e) := by
  intro emb m docs e h
  simp [create_vectorstore, h]

/-- Witness for the amended C2 at concrete inputs. -/
theorem create_vectorstore_failure_leaves_state_witness :
    create_vectorstore failingEmbed ChatManager.init ["retry this doc".toList] =
      (ChatManager.init, .error "embedding service unavailable") :=
  create_vectorstore_failure_leaves_state failingEmbed ChatManager.init
    ["retry this doc".toList] "embedding service unavailable" rfl

/-! ## Claim C6 — tools never raise -/

/-- Claim C6: for each registered tool (calculator, text analyzer,
date/time) and every input, `_run` — viewed in the exception monad
with its `except Exception` handler in place — returns a string
normally; no invocation propagates an exception to the caller. -/
theorem tools_never_raise :
    ∀ (query text now dtQuery : List Char),
      (calculator_run_exc query).isOk = true ∧
      (text_analyzer_run_exc text).isOk = true ∧
      (datetime_run_exc now dtQuery).isOk = true := by
  intro query text now dtQuery
  refine ⟨?_, ?_, ?_⟩
  · cases h : calculator_body query <;> (unfold calculator_run_exc; rw [h]) <;> rfl
  · rfl
  · cases h : datetime_body now dtQuery <;> (unfold datetime_run_exc; rw [h]) <;> rfl

/-! ## Claim C8 — text analyzer counts on the reference sentence -/

/-- Claim C8: on `"A simple test. Another sentence!"` the text
analyzer computes `word_count = 5` (`len(text.split())`) and
`sentence_count = 2` (`len(re.findall(r'[.!?]+', text))`), and its
rendered report contains the corresponding lines. -/
theorem text_analyzer_example_counts :
    word_count ("A simple test. Another sentence!".toList) = 5 ∧
    sentence_count ("A simple test. Another sentence!".toList) = 2 ∧
    containsSub (text_analyzer_run ("A simple test. Another sentence!".toList))
      ("- Word count: 5".toList) = true ∧
    containsSub (text_analyzer_run ("A simple test. Another sentence!".toList))
      ("- Sentence count: 2".toList) = true := by
  refine ⟨?_, ?_, ?_, ?_⟩ <;> decide

/-! ## Claim C4 — the calculator's whitelist and its sabotaged rewrites -/

/-- Claim C4, evaluated at the inputs the claim names.  `"2+2"` yields
a result containing `4`, and the non-whitelisted
`"__import__('os')"` is not executed — name resolution fails inside
the restricted namespace and a `NameError` error string is returned.
But `"sqrt(16)"` does **not** yield `4`: the rewrite cascade turns it
into `"math.sqrt(16)"`, and `allowed_names` binds `sqrt` — not `math`
(the dict holds the module's members, not the module) — so `eval`
raises `NameError: name 'math' is not defined` and the tool returns
the error string.  This contradicts the tool's own `description`
(`"... like '2+2' or 'sqrt(16)' ..."`, `research_agent.py:19`): a bug
in the code, not in the claim. -/
theorem calculator_code_bug :
    calculator_run ("2+2".toList) = ("The result of 2+2 is: 4".toList) ∧
    calculator_run ("sqrt(16)".toList) =
      (("Error in calculation: name ".toList) ++ [aposChar] ++ ("math".toList) ++
       [aposChar] ++ (" is not defined. Please check your mathematical expression.".toList)) ∧
    containsSub (calculator_run ("sqrt(16)".toList)) ("4".toList) = false ∧
    calculator_run (("__import__(".toList) ++ [aposChar] ++ ("os".toList) ++
        [aposChar] ++ (")".toList)) =
      (("Error in calculation: name ".toList) ++ [aposChar] ++ ("__import__".toList) ++
       [aposChar] ++ (" is not defined. Please check your mathematical expression.".toList)) := by
  refine ⟨?_, ?_, ?_, ?_⟩ <;> decide

/-! ## Claim C7 — the bounded reasoning loop -/

theorem agentLoop_trace_le :
    ∀ (d : List AgentStep → Decision) (r : List Char → List Char → List Char)
      (f : List AgentStep → List Char) (fuel : Nat) (trace : List AgentStep),
      (agentLoop d r f fuel trace).trace.length ≤ trace.length + fuel := by
  intro d r f fuel
  induction fuel with
  | zero => intro trace; simp [agentLoop]
  | succ n ih =>
    intro trace
    cases h : d trace with
    | finish a => simp [agentLoop, h]
    | act tool input =>
      have := ih (trace ++ [{ tool := tool, input := input, observation := r tool input }])
      simp only [agentLoop, h]
      simp only [List.length_append, List.length_cons, List.length_nil] at this
      omega

theorem agentLoop_all_act :
    ∀ (d : List AgentStep → Decision) (r : List Char → List Char → List Char)
      (f : List AgentStep → List Char), (∀ tr, (d tr).isAct = true) →
      ∀ (fuel : Nat) (trace : List AgentStep),
      (agentLoop d r f fuel trace).earlyStopped = true ∧
      (agentLoop d r f fuel trace).trace.length = trace.length + fuel ∧
      (agentLoop d r f fuel trace).answer = f (agentLoop d r f fuel trace).trace := by
  intro d r f hact fuel
  induction fuel with
  | zero => intro trace; simp [agentLoop]
  | succ n ih =>
    intro trace
    cases h : d trace with
    | finish a => have := hact trace; rw [h] at this; simp [Decision.isAct] at this
    | act tool input =>
      have h3 := ih (trace ++ [{ tool := tool, input := input, observation := r tool input }])
      simp only [agentLoop, h]
      refine ⟨h3.1, ?_, h3.2.2⟩
      rw [h3.2.1]
      simp
      omega

/-- Claim C7: with the configured iteration cap 3 and
`early_stopping_method="generate"`, every run of the reasoning loop
terminates with at most 3 think/act/observe cycles recorded; and for
every model policy that keeps asking for tools (a query that would
need more tool calls than the cap), the loop performs exactly 3
cycles and then makes the single early-stopping call, returning the
answer that call generates from the accumulated trace — it neither
fails nor loops. -/
theorem agent_loop_capped :
    ∀ (decideStep : List AgentStep → Decision)
      (runTool : List Char → List Char → List Char)
      (finalize : List AgentStep → List Char),
      (agentRun decideStep runTool finalize).trace.length ≤ 3 ∧
      ((∀ tr, (decideStep tr).isAct = true) →
        (agentRun decideStep runTool finalize).earlyStopped = true ∧
        (agentRun decideStep runTool finalize).trace.length = 3 ∧
        (agentRun decideStep runTool finalize).answer =
          finalize (agentRun decideStep runTool finalize).trace) := by
  intro d r f
  constructor
  · simpa using agentLoop_trace_le d r f 3 []
  · intro hact
    have h := agentLoop_all_act d r f hact 3 []
    exact ⟨h.1, by simpa using h.2.1, h.2.2⟩

/-- Witness for C7: a model policy that always asks for another
calculator call is stopped after 3 recorded cycles and answered by
the early-stopping generation call. -/
theorem agent_loop_capped_witness :
    (agentRun (fun _ => Decision.act calculatorName ("2+2".toList))
      (runRegisteredTool []) (fun tr => natRepr0 tr.length)).earlyStopped = true ∧
    (agentRun (fun _ => Decision.act calculatorName ("2+2".toList))
      (runRegisteredTool []) (fun tr => natRepr0 tr.length)).trace.length = 3 := by
  have h := (agent_loop_capped (fun _ => Decision.act calculatorName ("2+2".toList))
    (runRegisteredTool []) (fun tr => natRepr0 tr.length)).2 (fun _ => rfl)
  exact ⟨h.1, h.2.1⟩

/-! ## Claim C3 — chunk coverage and count

The development below first characterizes the splitter on
whitespace-free text (where no separator matches and the text splits
into single characters handled by `_merge_splits`), then refutes the
unrestricted claim on a text containing a paragraph separator and on
the empty text. -/

theorem dropWhile_eq_self_of_all {p : Char → Bool} {l : List Char}
    (h : ∀ a ∈ l, p a = false) : l.dropWhile p = l := by
  cases l with
  | nil => rfl
  | cons a t => simp [List.dropWhile, h a (by simp)]

theorem pyStrip_plain {l : List Char}
    (h : ∀ a ∈ l, pyWhitespace a = false) : pyStrip l = l := by
  unfold pyStrip
  rw [dropWhile_eq_self_of_all h, dropWhile_eq_self_of_all, List.reverse_reverse]
  intro a ha
  exact h a (by simpa using ha)

theorem joinWithSep_singletons (w : List Char) :
    joinWithSep [] (w.map (fun a => [a])) = w := by
  induction w with
  | nil => rfl
  | cons a t ih =>
    cases t with
    | nil => rfl
    | cons b t2 =>
      simp only [List.map_cons] at ih ⊢
      rw [joinWithSep]
      simpa using ih

theorem joinDocs_singletons {w : List Char}
    (h : ∀ a ∈ w, pyWhitespace a = false) :
    joinDocs [] (w.map (fun a => [a])) = if w = [] then none else some w := by
  unfold joinDocs
  rw [joinWithSep_singletons, pyStrip_plain h]

theorem containsSub_mem {l s : List Char} (h : containsSub l s = true) :
    ∀ a ∈ s, a ∈ l := by
  induction l with
  | nil =>
    unfold containsSub at h
    split at h
    · rename_i hp
      have := List.isPrefixOf_iff_prefix.mp hp
      have hs : s = [] := List.prefix_nil.mp this
      subst hs
      intro a ha
      simp at ha
    · simp at h
  | cons b t ih =>
    unfold containsSub at h
    split at h
    · rename_i hp
      have hpre := List.isPrefixOf_iff_prefix.mp hp
      intro a ha
      exact hpre.subset ha
    · intro a ha
      exact List.mem_cons_of_mem b (ih h a ha)

theorem containsSub_false_of_plain {l s : List Char} (u : Char)
    (hm : u ∈ s) (hws : pyWhitespace u = true)
    (h : ∀ a ∈ l, pyWhitespace a = false) : containsSub l s = false := by
  cases hc : containsSub l s with
  | false => rfl
  | true =>
    have := containsSub_mem hc u hm
    rw [h u this] at hws
    exact absurd hws (by simp)

theorem popWhile_singletons (c o : Nat) (ho : o < c) :
    ∀ w : List Char,
      popWhile c o 0 1 (w.map (fun a => [a])) w.length =
        (min w.length o, ((w.drop (w.length - o)).map (fun a => [a]))) := by
  intro w
  induction w with
  | nil =>
    simp only [List.map_nil, List.length_nil, popWhile]
    simp
  | cons x t ih =>
    simp only [List.map_cons, List.length_cons]
    rw [popWhile]
    by_cases hcase : t.length + 1 > o
    · rw [if_pos (Or.inl hcase)]
      have harg : t.length + 1 - ([x].length + if (t.map (fun a => [a])).length > 0 then 0 else 0)
          = t.length := by
        simp
      rw [harg, ih]
      have h1 : min (t.length + 1) o = o := by omega
      have h2 : min t.length o = o := by omega
      rw [h1, h2]
      have h3 : t.length + 1 - o = (t.length - o) + 1 := by omega
      rw [h3]
      simp
    · have hc2 : ¬(t.length + 1 + 1 + 0 > c ∧ t.length + 1 > 0) := by
        intro hcon
        omega
      rw [if_neg (by push_neg; push_neg at hc2; exact ⟨by omega, by intro hh; omega⟩)]
      have h1 : min (t.length + 1) o = t.length + 1 := by omega
      have h2 : t.length + 1 - o = 0 := by omega
      rw [h1, h2]
      simp

theorem mergeStep_unsat (c o : Nat) (docs : List (List Char)) (w : List Char) (a : Char)
    (h : w.length + 1 ≤ c) :
    mergeStep c o [] ⟨docs, w.map (fun x => [x]), w.length⟩ [a] =
      ⟨docs, (w ++ [a]).map (fun x => [x]), w.length + 1⟩ := by
  unfold mergeStep
  simp only [List.length_cons, List.length_nil, List.length_map, ite_self, Nat.add_zero]
  rw [if_neg (by omega)]
  simp [List.map_append]

theorem mergeStep_sat (c o : Nat) (ho : o < c) (docs : List (List Char)) (w : List Char)
    (a : Char) (hw : w.length = c) (hpw : ∀ x ∈ w, pyWhitespace x = false) :
    mergeStep c o [] ⟨docs, w.map (fun x => [x]), c⟩ [a] =
      ⟨docs ++ [w], ((w.drop (c - o)) ++ [a]).map (fun x => [x]), o + 1⟩ := by
  have hne : w ≠ [] := by
    intro hnil
    rw [hnil] at hw
    simp at hw
    omega
  unfold mergeStep
  simp only [List.length_cons, List.length_nil, List.length_map, ite_self, Nat.add_zero]
  rw [if_pos (by omega), if_pos (by rw [hw]; omega)]
  rw [joinDocs_singletons hpw, if_neg hne]
  have hpop := popWhile_singletons c o ho w
  rw [hw] at hpop
  simp only [hpop]
  have h1 : min c o = o := by omega
  rw [h1]
  simp [List.map_append]

theorem mergeAbsorb (c o : Nat) :
    ∀ (zs w : List Char) (docs : List (List Char)), w.length + zs.length ≤ c →
      List.foldl (mergeStep c o []) ⟨docs, w.map (fun x => [x]), w.length⟩
          (zs.map (fun x => [x])) =
        ⟨docs, (w ++ zs).map (fun x => [x]), (w ++ zs).length⟩ := by
  intro zs
  induction zs with
  | nil => intro w docs _; simp
  | cons a t ih =>
    intro w docs h
    simp only [List.length_cons] at h
    simp only [List.map_cons, List.foldl_cons]
    rw [mergeStep_unsat c o docs w a (by omega)]
    have h2 : (w ++ [a]).length = w.length + 1 := by simp
    have h3 := ih (w ++ [a]) docs (by simp; omega)
    rw [h2] at h3
    rw [h3]
    simp

theorem winChunks_nil (c o : Nat) (w : List Char) : winChunks c o w [] = [w] := by
  unfold winChunks
  simp

theorem winChunks_small (c o : Nat) (w ys : List Char) (h1 : ys.length ≠ 0)
    (h2 : ys.length < c - o) :
    winChunks c o w ys = [w, w.drop (c - o) ++ ys] := by
  unfold winChunks
  rw [if_neg h1, if_pos (Or.inl h2)]

theorem winChunks_big (c o : Nat) (w ys : List Char) (h1 : c - o ≠ 0)
    (h2 : c - o ≤ ys.length) :
    winChunks c o w ys =
      w :: winChunks c o (w.drop (c - o) ++ ys.take (c - o)) (ys.drop (c - o)) := by
  conv_lhs => unfold winChunks
  rw [if_neg (by omega), if_neg (by push_neg; exact ⟨by omega, h1⟩)]

theorem mergeWin (c o : Nat) (ho : o < c) :
    ∀ (N : Nat) (ys w : List Char) (docs : List (List Char)),
      ys.length ≤ N → w.length = c →
      (∀ x ∈ w, pyWhitespace x = false) → (∀ x ∈ ys, pyWhitespace x = false) →
      (List.foldl (mergeStep c o []) ⟨docs, w.map (fun x => [x]), c⟩
          (ys.map (fun x => [x]))).docs ++
        (joinDocs [] (List.foldl (mergeStep c o []) ⟨docs, w.map (fun x => [x]), c⟩
          (ys.map (fun x => [x]))).cur).toList =
      docs ++ winChunks c o w ys := by
  intro N
  induction N with
  | zero =>
    intro ys w docs hlen hw hpw _
    have hnil : ys = [] := List.eq_nil_of_length_eq_zero (by omega)
    subst hnil
    have hne : w ≠ [] := by
      intro hnil2
      rw [hnil2] at hw
      simp at hw
      omega
    simp only [List.map_nil, List.foldl_nil, winChunks_nil]
    rw [joinDocs_singletons hpw, if_neg hne]
    rfl
  | succ N ih =>
    intro ys w docs hlen hw hpw hpy
    cases ys with
    | nil =>
      have hne : w ≠ [] := by
        intro hnil2
        rw [hnil2] at hw
        simp at hw
        omega
      simp only [List.map_nil, List.foldl_nil, winChunks_nil]
      rw [joinDocs_singletons hpw, if_neg hne]
      rfl
    | cons a t =>
      have hs1 : 1 ≤ c - o := by omega
      have hpt : ∀ x ∈ t, pyWhitespace x = false := fun x hx => hpy x (by simp [hx])
      have hpa : pyWhitespace a = false := hpy a (by simp)
      have hpw1 : ∀ x ∈ w.drop (c - o) ++ [a], pyWhitespace x = false := by
        intro x hx
        rcases List.mem_append.mp hx with hx2 | hx2
        · exact hpw x (List.mem_of_mem_drop hx2)
        · simp at hx2
          subst hx2
          exact hpa
      have hw1len : (w.drop (c - o) ++ [a]).length = o + 1 := by
        simp [List.length_drop, hw]
        omega
      simp only [List.map_cons, List.foldl_cons]
      rw [mergeStep_sat c o ho docs w a hw hpw]
      by_cases hsmall : t.length + 1 < c - o
      · -- the rest fits into the new window without another emission
        have habs := mergeAbsorb c o t (w.drop (c - o) ++ [a]) (docs ++ [w])
          (by rw [hw1len]; omega)
        rw [hw1len] at habs
        rw [habs]
        have hne2 : (w.drop (c - o) ++ [a]) ++ t ≠ [] := by simp
        have hp2 : ∀ x ∈ (w.drop (c - o) ++ [a]) ++ t, pyWhitespace x = false := by
          intro x hx
          rcases List.mem_append.mp hx with hx2 | hx2
          · exact hpw1 x hx2
          · exact hpt x hx2
        simp only []
        rw [joinDocs_singletons hp2, if_neg hne2]
        rw [winChunks_small c o w (a :: t) (by simp) (by simp; omega)]
        simp
      · -- another full window forms: split off the next c - o characters
        have hts : c - o - 1 ≤ t.length := by omega
        have hmapsplit : t.map (fun x => ([x] : List Char)) =
            (t.take (c - o - 1)).map (fun x => [x]) ++
              (t.drop (c - o - 1)).map (fun x => [x]) := by
          rw [← List.map_append, List.take_append_drop]
        rw [hmapsplit, List.foldl_append]
        have hzslen : (t.take (c - o - 1)).length = c - o - 1 := by
          simp [List.length_take]
          omega
        have habs := mergeAbsorb c o (t.take (c - o - 1)) (w.drop (c - o) ++ [a]) (docs ++ [w])
          (by rw [hw1len, hzslen]; omega)
        rw [hw1len] at habs
        rw [habs]
        have hw2len : ((w.drop (c - o) ++ [a]) ++ t.take (c - o - 1)).length = c := by
          rw [List.length_append, hw1len, hzslen]
          omega
        have hp2 : ∀ x ∈ (w.drop (c - o) ++ [a]) ++ t.take (c - o - 1),
            pyWhitespace x = false := by
          intro x hx
          rcases List.mem_append.mp hx with hx2 | hx2
          · exact hpw1 x hx2
          · exact hpt x (List.mem_of_mem_take hx2)
        have hp3 : ∀ x ∈ t.drop (c - o - 1), pyWhitespace x = false :=
          fun x hx => hpt x (List.mem_of_mem_drop hx)
        have hrest : (t.drop (c - o - 1)).length ≤ N := by
          simp only [List.length_cons] at hlen
          simp [List.length_drop]
          omega
        have hIH := ih (t.drop (c - o - 1)) ((w.drop (c - o) ++ [a]) ++ t.take (c - o - 1))
          (docs ++ [w]) hrest hw2len hp2 hp3
        rw [hw2len, hIH]
        rw [winChunks_big c o w (a :: t) (by omega) (by simp; omega)]
        have htake : (a :: t).take (c - o) = a :: t.take (c - o - 1) := by
          have : c - o = (c - o - 1) + 1 := by omega
          rw [this]
          rfl
        have hdrop : (a :: t).drop (c - o) = t.drop (c - o - 1) := by
          have : c - o = (c - o - 1) + 1 := by omega
          rw [this]
          rfl
        rw [htake, hdrop]
        simp

theorem winChunks_length (c o : Nat) (ho : o < c) :
    ∀ (N : Nat) (ys w : List Char), ys.length ≤ N →
      (winChunks c o w ys).length = 1 + (ys.length + (c - o) - 1) / (c - o) := by
  intro N
  induction N with
  | zero =>
    intro ys w h
    have hnil : ys = [] := List.eq_nil_of_length_eq_zero (by omega)
    subst hnil
    rw [winChunks_nil]
    have hz0 : (c - o - 1) / (c - o) = 0 := Nat.div_eq_of_lt (by omega)
    simp [hz0]
  | succ N ih =>
    intro ys w h
    by_cases hz : ys.length = 0
    · have hnil : ys = [] := List.eq_nil_of_length_eq_zero hz
      subst hnil
      rw [winChunks_nil]
      have hz0 : (c - o - 1) / (c - o) = 0 := Nat.div_eq_of_lt (by omega)
      simp [hz0]
    · by_cases hsmall : ys.length < c - o
      · rw [winChunks_small c o w ys hz hsmall]
        have harg : ys.length + (c - o) - 1 = (ys.length - 1) + (c - o) := by omega
        rw [harg, Nat.add_div_right _ (by omega), Nat.div_eq_of_lt (by omega)]
        simp
      · push_neg at hsmall
        rw [winChunks_big c o w ys (by omega) hsmall]
        have hrest : (ys.drop (c - o)).length ≤ N := by
          simp [List.length_drop]
          omega
        rw [List.length_cons, ih (ys.drop (c - o)) _ hrest]
        have hdlen : (ys.drop (c - o)).length = ys.length - (c - o) := by simp
        rw [hdlen]
        have h1 : ys.length - (c - o) + (c - o) - 1 = ys.length - 1 := by omega
        have h2 : ys.length + (c - o) - 1 = (ys.length - 1) + (c - o) := by omega
        rw [h1, h2, Nat.add_div_right _ (by omega : 0 < c - o)]
        omega

theorem winChunks_cons (c o : Nat) (w ys : List Char) :
    ∃ t, winChunks c o w ys = w :: t := by
  unfold winChunks
  split_ifs
  · exact ⟨[], rfl⟩
  · exact ⟨[w.drop (c - o) ++ ys], rfl⟩
  · exact ⟨_, rfl⟩

theorem winChunks_join (c o : Nat) (ho : o < c) :
    ∀ (N : Nat) (ys w : List Char), ys.length ≤ N → w.length = c →
      ((winChunks c o w ys).map (fun z => z.drop o)).flatten = w.drop o ++ ys := by
  intro N
  induction N with
  | zero =>
    intro ys w h hw
    have hnil : ys = [] := List.eq_nil_of_length_eq_zero (by omega)
    subst hnil
    rw [winChunks_nil]
    simp
  | succ N ih =>
    intro ys w h hw
    by_cases hz : ys.length = 0
    · have hnil : ys = [] := List.eq_nil_of_length_eq_zero hz
      subst hnil
      rw [winChunks_nil]
      simp
    · have hdropgen : ∀ (l1 l2 : List Char), l1.length = o → (l1 ++ l2).drop o = l2 := by
        intro l1 l2 hl
        rw [← hl, List.drop_left]
      have hdroplen : (w.drop (c - o)).length = o := by
        simp [List.length_drop, hw]
        omega
      by_cases hsmall : ys.length < c - o
      · rw [winChunks_small c o w ys hz hsmall]
        simp only [List.map_cons, List.map_nil, List.flatten_cons, List.flatten_nil]
        rw [hdropgen _ _ hdroplen]
        simp
      · push_neg at hsmall
        rw [winChunks_big c o w ys (by omega) hsmall]
        have hrest : (ys.drop (c - o)).length ≤ N := by
          simp [List.length_drop]
          omega
        have hw2 : (w.drop (c - o) ++ ys.take (c - o)).length = c := by
          simp [List.length_drop, List.length_take, hw]
          omega
        simp only [List.map_cons, List.flatten_cons]
        rw [ih (ys.drop (c - o)) _ hrest hw2]
        rw [hdropgen _ _ hdroplen]
        rw [List.take_append_drop]

theorem goSplits_good (c o : Nat) (expand : List Char → List (List Char)) :
    ∀ (l acc : List (List Char)), (∀ s ∈ l, s.length < c) →
      goSplits c o expand l acc = mergeSplits c o [] (acc ++ l) := by
  intro l
  induction l with
  | nil => intro acc _; simp [goSplits]
  | cons s rest ih =>
    intro acc h
    rw [goSplits, if_pos (h s (by simp))]
    rw [ih (acc ++ [s]) (fun x hx => h x (by simp [hx]))]
    simp

theorem splitTextAll_plain (c o : Nat) (hc : 2 ≤ c) (xs : List Char)
    (hp : ∀ a ∈ xs, pyWhitespace a = false) :
    splitTextAll c o xs = mergeSplits c o [] (xs.map (fun a => [a])) := by
  have hnl : containsSub xs [Char.ofNat 10, Char.ofNat 10] = false :=
    containsSub_false_of_plain (Char.ofNat 10) (by simp) (by decide) hp
  have hnl2 : containsSub xs [Char.ofNat 10] = false :=
    containsSub_false_of_plain (Char.ofNat 10) (by simp) (by decide) hp
  have hsp : containsSub xs [' '] = false :=
    containsSub_false_of_plain ' ' (by simp) (by decide) hp
  have hchoose : chooseSep xs [[Char.ofNat 10, Char.ofNat 10], [Char.ofNat 10], [' '], []]
      = ([], []) := by
    rw [chooseSep, if_neg (by simp), hnl]
    rw [if_neg (by simp)]
    rw [chooseSep, if_neg (by simp), hnl2]
    rw [if_neg (by simp)]
    rw [chooseSep, if_neg (by simp), hsp]
    rw [if_neg (by simp)]
    rfl
  unfold splitTextAll
  rw [splitTextRec, hchoose]
  have hkeep : splitKeep xs [] = xs.map (fun a => [a]) := rfl
  rw [hkeep]
  rw [goSplits_good c o _ (xs.map (fun a => [a])) []
    (by intro s hs; simp at hs; obtain ⟨a, _, ha⟩ := hs; rw [← ha]; simpa using hc)]
  rfl

theorem mergeSingles_short (c o : Nat) (xs : List Char) (h : xs.length ≤ c)
    (hp : ∀ a ∈ xs, pyWhitespace a = false) :
    mergeSplits c o [] (xs.map (fun a => [a])) = if xs = [] then [] else [xs] := by
  have h0 : mergeSplits c o [] (xs.map (fun a => [a])) =
      (List.foldl (mergeStep c o []) ⟨[], [], 0⟩ (xs.map (fun a => [a]))).docs ++
        (joinDocs [] (List.foldl (mergeStep c o []) ⟨[], [], 0⟩
          (xs.map (fun a => [a]))).cur).toList := rfl
  have habs := mergeAbsorb c o xs [] [] (by simp; omega)
  simp only [List.map_nil, List.length_nil, List.nil_append] at habs
  rw [h0, habs]
  show [] ++ (joinDocs [] (xs.map (fun a => [a]))).toList = _
  rw [joinDocs_singletons hp]
  by_cases hnil : xs = []
  · subst hnil; simp
  · rw [if_neg hnil, if_neg hnil]
    rfl

theorem mergeSingles_long (c o : Nat) (ho : o < c) (xs : List Char) (h : c < xs.length)
    (hp : ∀ a ∈ xs, pyWhitespace a = false) :
    mergeSplits c o [] (xs.map (fun a => [a])) =
      winChunks c o (xs.take c) (xs.drop c) := by
  have h0 : mergeSplits c o [] (xs.map (fun a => [a])) =
      (List.foldl (mergeStep c o []) ⟨[], [], 0⟩ (xs.map (fun a => [a]))).docs ++
        (joinDocs [] (List.foldl (mergeStep c o []) ⟨[], [], 0⟩
          (xs.map (fun a => [a]))).cur).toList := rfl
  have hmapsplit : xs.map (fun a => ([a] : List Char)) =
      (xs.take c).map (fun a => [a]) ++ (xs.drop c).map (fun a => [a]) := by
    rw [← List.map_append, List.take_append_drop]
  rw [h0, hmapsplit, List.foldl_append]
  have htlen : (xs.take c).length = c := by
    simp [List.length_take]
    omega
  have habs := mergeAbsorb c o (xs.take c) [] [] (by simp [htlen])
  simp only [List.map_nil, List.length_nil, List.nil_append, htlen] at habs
  rw [habs]
  have hpw : ∀ x ∈ xs.take c, pyWhitespace x = false :=
    fun x hx => hp x (List.mem_of_mem_take hx)
  have hpy : ∀ x ∈ xs.drop c, pyWhitespace x = false :=
    fun x hx => hp x (List.mem_of_mem_drop hx)
  have := mergeWin c o ho ((xs.drop c).length) (xs.drop c) (xs.take c) [] le_rfl htlen hpw hpy
  simpa using this

/-- Claim C3 (amended): for every **non-empty, whitespace-free** text
(so none of the splitter's separators occurs and nothing is stripped)
and parameters with `2 ≤ chunk_size` and `overlap < chunk_size`, the
configured splitter covers the text end-to-end with no gaps — the
first chunk followed by each later chunk minus its `overlap`-character
prefix reconstructs the text exactly — and the number of chunks is
`ceil((len(T) − overlap) / (chunk_size − overlap))` when
`len(T) > chunk_size`, else `1`.  (For text containing separators or
leading/trailing whitespace the recursive splitter can drop separator
characters and produce a different count — see the counterexample —
and the empty text yields `0` chunks.) -/
theorem splitter_plain_text_coverage_and_count (c o : Nat) (xs : List Char)
    (hc : 2 ≤ c) (ho : o < c) (hne : xs ≠ [])
    (hplain : ∀ a ∈ xs, pyWhitespace a = false) :
    (xs.length ≤ c → splitTextAll c o xs = [xs]) ∧
    (c < xs.length →
      (splitTextAll c o xs).length = (xs.length - o + (c - o) - 1) / (c - o)) ∧
    (splitTextAll c o xs).headD [] ++
      ((splitTextAll c o xs).tail.map (fun z => z.drop o)).flatten = xs := by
  rw [splitTextAll_plain c o hc xs hplain]
  by_cases hlen : xs.length ≤ c
  · rw [mergeSingles_short c o xs hlen hplain, if_neg hne]
    refine ⟨fun _ => rfl, fun hcon => absurd hcon (by omega), ?_⟩
    simp
  · push_neg at hlen
    rw [mergeSingles_long c o ho xs hlen hplain]
    have htklen : (xs.take c).length = c := by
      simp [List.length_take]
      omega
    refine ⟨fun hcon => absurd hcon (by omega), ?_, ?_⟩
    · intro _
      rw [winChunks_length c o ho ((xs.drop c).length) (xs.drop c) (xs.take c) le_rfl]
      have hdlen : (xs.drop c).length = xs.length - c := by simp
      rw [hdlen]
      have harg : xs.length - o + (c - o) - 1 = (xs.length - c + (c - o) - 1) + (c - o) := by
        omega
      rw [harg, Nat.add_div_right _ (by omega : 0 < c - o)]
      omega
    · obtain ⟨t, ht⟩ := winChunks_cons c o (xs.take c) (xs.drop c)
      have hj := winChunks_join c o ho ((xs.drop c).length) (xs.drop c) (xs.take c)
        le_rfl htklen
      rw [ht] at hj
      simp only [List.map_cons, List.flatten_cons] at hj
      have hcancel : ((t.map (fun z => z.drop o)).flatten) = xs.drop c :=
        List.append_cancel_left hj
      rw [ht]
      simp only [List.headD, List.tail]
      rw [hcancel, List.take_append_drop]

/-- Witness for the amended C3 at `chunk_size = 5`, `overlap = 2`,
text `"abcdefghij"`: three chunks and exact overlap reconstruction. -/
theorem splitter_plain_witness :
    (splitTextAll 5 2 ("abcdefghij".toList)).length =
      (("abcdefghij".toList).length - 2 + (5 - 2) - 1) / (5 - 2) ∧
    (splitTextAll 5 2 ("abcdefghij".toList)).headD [] ++
      ((splitTextAll 5 2 ("abcdefghij".toList)).tail.map (fun z => z.drop 2)).flatten =
      ("abcdefghij".toList) := by
  have h := splitter_plain_text_coverage_and_count 5 2 ("abcdefghij".toList)
    (by decide) (by decide) (by decide) (by decide)
  exact ⟨h.2.1 (by decide), h.2.2⟩

/-- Claim C3 counterexample: the claim fails as stated on the real
splitter.  At valid parameters `chunk_size = 10`, `overlap = 4` the
text `"aaaaaaaa\n\nbbbbbbb"` (length 17 > 10) yields **2** chunks
where the claimed formula gives `ceil((17 − 4) / 6) = 3`, and the
chunks do not cover the text (the `"\n\n"` separator is dropped — a
gap, and no overlap remains).  Moreover at the code's configured
parameters (1000, 200) the empty text yields **0** chunks, not 1. -/
theorem splitter_formula_counterexample :
    (splitTextAll 10 4 ("aaaaaaaa\n\nbbbbbbb".toList)).length = 2 ∧
    ("aaaaaaaa\n\nbbbbbbb".toList).length = 17 ∧
    (17 - 4 + (10 - 4) - 1) / (10 - 4) = 3 ∧ (2 : Nat) ≠ 3 ∧
    (splitTextAll 10 4 ("aaaaaaaa\n\nbbbbbbb".toList)).headD [] ++
      ((splitTextAll 10 4 ("aaaaaaaa\n\nbbbbbbb".toList)).tail.map
        (fun z => z.drop 4)).flatten ≠ ("aaaaaaaa\n\nbbbbbbb".toList) ∧
    split_text [] = [] := by
  refine ⟨?_, ?_, ?_, ?_, ?_, ?_⟩ <;> decide
